import Mathlib

/-!
Verification development for the daily data-freshness cache and
multi-source fallback chain of the stock-digest repository.

The embedding follows the Python source:
  * `core/caching/enhanced_caching_system.py` — budget tracker (`can_call_api_today`,
    `record_api_call`), durable cache store (`save_to_cache`, `get_from_cache`,
    `get_all_cached_tickers`, `cleanup_old_cache`);
  * `core/data_collection/multi_source_stock_data.py` — fallback orchestrator
    (`get_comprehensive_stock_data`), enrichment pipeline (`_enrich_stock_data`
    and its three stages), synthetic generator (`_generate_sample_stock_data`);
  * `core/caching/smart_cache_first_system.py` — smart entry point
    (`get_stock_data_smart`, `_can_call_apis_today`, `_use_cache_only`).

Modelling conventions:
  * instants are seconds since an epoch (`Nat`); a calendar date is the day
    index `t / 86400`;
  * pandas/JSON scalars are `Val` (exact rationals or strings); a missing value
    (NaN/None) is `Option.none`; Python floating point is abstracted by exact
    rational arithmetic (the claims proved do not depend on float rounding);
  * a pandas DataFrame is a list of rows, each row an ordered association list
    from column name to optional value (all rows of a real frame share one
    column list); column assignment follows pandas: replace the column in
    place if present, else append it;
  * sqlite tables are lists of row structures; `INSERT OR REPLACE` on the
    primary key deletes the conflicting row and appends the new one;
    `ORDER BY collected_at DESC LIMIT 1` picks a row with maximal
    `collected_at`;
  * a `try/except` whose handler logs and returns a default is modelled by a
    total function taking the fallible part's outcome (an `io_fails` flag or an
    `Except`-shaped oracle) and producing the handler's default on failure.
-/

/-- Exact rational numbers represented as (not necessarily reduced)
numerator/denominator pairs, with executable arithmetic the proof kernel can
evaluate. All numbers this embedding constructs have a non-zero denominator.
Python's binary floating point is abstracted by exact rational arithmetic;
no claim proved below depends on float rounding, nor on identifying two
different representations of the same rational (every comparison below is
between values produced by the same formula, hence the same
representation). -/
structure Qv where
  num : Int
  den : Int
deriving DecidableEq, Repr

/-- Ten to a natural power, as an integer. -/
def tenPow : Nat → Int
  | 0 => 1
  | n + 1 => 10 * tenPow n

/-- Exact addition. -/
def Qv.add (a b : Qv) : Qv := ⟨a.num * b.den + b.num * a.den, a.den * b.den⟩

/-- Exact subtraction. -/
def Qv.sub (a b : Qv) : Qv := ⟨a.num * b.den - b.num * a.den, a.den * b.den⟩

/-- Exact multiplication. -/
def Qv.mul (a b : Qv) : Qv := ⟨a.num * b.num, a.den * b.den⟩

/-- Exact division (the callers below only divide by values whose numerator
is non-zero). -/
def Qv.div (a b : Qv) : Qv := ⟨a.num * b.den, a.den * b.num⟩

/-- Value-level zero test (valid for any representation with non-zero
denominator). -/
def Qv.isZero (a : Qv) : Bool := a.num == 0

/-- Value-level order, valid for denominators of either sign: multiply both
sides by the square of the (non-zero) common denominator. -/
def Qv.le (a b : Qv) : Prop :=
  a.num * b.den * (a.den * b.den) ≤ b.num * a.den * (a.den * b.den)

instance : Add Qv := ⟨Qv.add⟩

instance : Sub Qv := ⟨Qv.sub⟩

instance : Mul Qv := ⟨Qv.mul⟩

instance : Div Qv := ⟨Qv.div⟩

instance : LE Qv := ⟨Qv.le⟩

instance (a b : Qv) : Decidable (a ≤ b) :=
  inferInstanceAs
    (Decidable (a.num * b.den * (a.den * b.den) ≤ b.num * a.den * (a.den * b.den)))

instance (n : Nat) : OfNat Qv n := ⟨⟨Int.ofNat n, 1⟩⟩

instance : NatCast Qv := ⟨fun n => ⟨Int.ofNat n, 1⟩⟩

instance : OfScientific Qv :=
  ⟨fun m b e => if b then ⟨Int.ofNat m, tenPow e⟩ else ⟨Int.ofNat m * tenPow e, 1⟩⟩

/-- Floor of an exact rational (sign-normalising the denominator first). -/
def Qv.floor (a : Qv) : Int :=
  if a.den < 0 then Int.fdiv (-a.num) (-a.den) else Int.fdiv a.num a.den

/-- Scalar values stored in records: numbers (exact rationals) or strings. -/
inductive Val where
  | num (q : Qv)
  | str (s : String)
deriving DecidableEq, Repr

/-- A record / DataFrame row: ordered association list from field name to
optional value (`none` models NaN/null). -/
abbrev Row := List (String × Option Val)

/-- Lookup in an ordered association list (first matching key wins),
mirroring Python dict / pandas column access. -/
def alookup {β : Type} : List (String × β) → String → Option β
  | [], _ => none
  | p :: rest, c => if p.1 = c then some p.2 else alookup rest c

/-- Update an ordered association list: replace the (first) binding of the key
in place if present, else append the new binding at the end — Python dict
assignment / pandas column assignment semantics. -/
def aset {β : Type} : List (String × β) → String → β → List (String × β)
  | [], c, v => [(c, v)]
  | p :: rest, c, v => if p.1 = c then (c, v) :: rest else p :: aset rest c v

/-- Column value of a row (distinguishes missing column from stored null). -/
def rowGet (r : Row) (c : String) : Option (Option Val) := alookup r c

/-- Whether a row has a column. -/
def rowHas (r : Row) (c : String) : Bool := (rowGet r c).isSome

/-- Row column set/update (pandas semantics via `aset`). -/
def rowSet (r : Row) (c : String) (v : Option Val) : Row := aset r c v

/-- Column value collapsing "column absent" and "stored null" into `none`,
like `row.get(c)` followed by NaN propagation. -/
def joinGet (r : Row) (c : String) : Option Val := (rowGet r c).join

/-- Count of non-null entries of a row (`row.notna().sum()`). -/
def countSome (r : Row) : Nat := r.countP (fun p => p.2.isSome)

/-- Calendar-day index of an instant (seconds since epoch). -/
def dateOf (t : Nat) : Nat := t / 86400

/-- A persisted timestamp string: either a well-formed ISO timestamp denoting
the instant `t`, or a malformed string that `datetime.fromisoformat` rejects. -/
inductive RawTs where
  | iso (t : Nat)
  | malformed
deriving DecidableEq, Repr

/-- Parsing a persisted timestamp (`datetime.fromisoformat`): succeeds exactly
on well-formed timestamps; a malformed string raises (modelled as `.error`). -/
def parseIso : RawTs → Except Unit Nat
  | .iso t => .ok t
  | .malformed => .error ()

/-- Per-source budget state held in the cache metadata JSON
(`enhanced_caching_system.py`, `_load_metadata` / `record_api_call`). -/
structure SourceMeta where
  last_api_call : Option RawTs
  last_successful_update : Option RawTs
  daily_calls : Nat
  max_daily_calls : Nat
deriving DecidableEq, Repr

/-- The metadata JSON: per-source budget states (insertion-ordered dict) plus
the two top-level scalar fields. -/
structure Metadata where
  sources : List (String × SourceMeta)
  cache_created : Option RawTs
  last_cache_cleanup : Option RawTs
deriving DecidableEq, Repr

/-- Fresh default per-source state used by `record_api_call` when the source
is absent from the metadata. -/
def defaultSourceMeta : SourceMeta :=
  { last_api_call := none, last_successful_update := none
    daily_calls := 0, max_daily_calls := 1 }

/-- EnhancedCachingSystem.can_call_api_today, translated from
`enhanced_caching_system.py` lines 139-168. Returns the boolean answer and the
metadata as persisted afterwards (the prior-day branch resets `daily_calls`
to 0 and saves). The `try/except` handler returns `True`; the only fallible
step inside the body is parsing `last_api_call`, so a malformed stored
timestamp yields `(true, md)`. An empty/None `last_api_call` is falsy in
Python and returns `True` before any parsing. -/
def can_call_api_today (md : Metadata) (source : String) (now : Nat) :
    Bool × Metadata :=
  match alookup md.sources source with
  | none => (true, md)
  | some sm =>
    match sm.last_api_call with
    | none => (true, md)
    | some ts =>
      match parseIso ts with
      | .error _ => (true, md)
      | .ok t =>
        if dateOf t < dateOf now then
          (true, { md with
                   sources := aset md.sources source { sm with daily_calls := 0 } })
        else
          (decide (sm.daily_calls < sm.max_daily_calls), md)

/-- EnhancedCachingSystem.record_api_call (lines 170-189): initialise the
source's state if absent, set `last_api_call := now`, increment `daily_calls`,
persist. -/
def record_api_call (md : Metadata) (source : String) (now : Nat) : Metadata :=
  let sm := (alookup md.sources source).getD defaultSourceMeta
  { md with
    sources := aset md.sources source
      { sm with last_api_call := some (.iso now), daily_calls := sm.daily_calls + 1 } }

/-- EnhancedCachingSystem.record_successful_update (lines 191-202). -/
def record_successful_update (md : Metadata) (source : String) (now : Nat) :
    Metadata :=
  let sm := (alookup md.sources source).getD defaultSourceMeta
  { md with
    sources := aset md.sources source
      { sm with last_successful_update := some (.iso now) } }

/-- EnhancedCachingSystem._load_metadata (lines 100-129): on any exception the
handler sets `self.metadata = {}` (an empty dict). The fallible read/parse of
the metadata file is the `Except` argument. -/
def load_metadata : Except Unit Metadata → Metadata
  | .ok md => md
  | .error _ => { sources := [], cache_created := none, last_cache_cleanup := none }

/-- A row of the per-source sqlite cache tables
(`yahoo_finance_cache` / `alpha_vantage_cache`), primary key
`(ticker, cache_date)`. `data` is the JSON-decoded record. -/
structure CacheRow where
  ticker : String
  data : Row
  collected_at : Nat
  cache_date : Nat
deriving DecidableEq, Repr

/-- A row of the `combined_cache` sqlite table, primary key
`(ticker, cache_date)`, additionally tagged with the writing source. -/
structure CombinedRow where
  ticker : String
  data : Row
  data_source : String
  collected_at : Nat
  cache_date : Nat
deriving DecidableEq, Repr

/-- The sqlite cache database (`_init_cache`, lines 55-98). -/
structure CacheDB where
  yahoo_finance_cache : List CacheRow
  alpha_vantage_cache : List CacheRow
  combined_cache : List CombinedRow
deriving DecidableEq, Repr

/-- `INSERT OR REPLACE` into a per-source table: delete any row with the same
`(ticker, cache_date)` primary key, then insert. -/
def upsertSourceRow (rows : List CacheRow) (r : CacheRow) : List CacheRow :=
  rows.filter (fun q => !(q.ticker == r.ticker && q.cache_date == r.cache_date)) ++ [r]

/-- `INSERT OR REPLACE` into `combined_cache` (same `(ticker, cache_date)`
primary key). -/
def upsertCombinedRow (rows : List CombinedRow) (r : CombinedRow) : List CombinedRow :=
  rows.filter (fun q => !(q.ticker == r.ticker && q.cache_date == r.cache_date)) ++ [r]

/-- EnhancedCachingSystem.save_to_cache (lines 204-242), success path: write
the record under today's date into the source-specific table (only for the
two known sources) and always into `combined_cache` tagged with the source. -/
def save_to_cache_ok (db : CacheDB) (source ticker : String) (data : Row)
    (now : Nat) : CacheDB :=
  let cd := dateOf now
  let db1 :=
    if source = "yahoo_finance" then
      { db with yahoo_finance_cache :=
          upsertSourceRow db.yahoo_finance_cache ⟨ticker, data, now, cd⟩ }
    else if source = "alpha_vantage" then
      { db with alpha_vantage_cache :=
          upsertSourceRow db.alpha_vantage_cache ⟨ticker, data, now, cd⟩ }
    else db
  { db1 with combined_cache :=
      upsertCombinedRow db1.combined_cache ⟨ticker, data, source, now, cd⟩ }

/-- Left-to-right scan underlying `pickLatest`, carrying the best row seen so
far. -/
def pickLatestGo {α : Type} (tick : α → String) (coll : α → Nat) (t : String) :
    Option α → List α → Option α
  | acc, [] => acc
  | acc, r :: rest =>
    pickLatestGo tick coll t
      (if tick r = t then
        match acc with
        | none => some r
        | some a => if coll a ≤ coll r then some r else some a
      else acc)
      rest

/-- Row with maximal `collected_at` among the rows of a table matching a
ticker (`SELECT ... WHERE ticker = ? ORDER BY collected_at DESC LIMIT 1`);
ties are broken towards the later row of the table. -/
def pickLatest {α : Type} (tick : α → String) (coll : α → Nat)
    (rows : List α) (t : String) : Option α :=
  pickLatestGo tick coll t none rows

/-- EnhancedCachingSystem.get_from_cache (lines 244-291), success path: fetch
the most recent row for the ticker (from the requested source table, or from
`combined_cache` when no source is given), then apply the freshness check
`age_hours <= max_age_hours` computed from `collected_at`; a stale or missing
row yields `none`. A source other than the two known ones never executes a
query and returns `none`. The comparison `(now - collected_at)/3600 <= H` is
stated equivalently over seconds. -/
def get_from_cache_ok (db : CacheDB) (ticker : String) (source : Option String)
    (max_age_hours : Nat) (now : Nat) : Option Row :=
  let fetched : Option (Row × Nat) :=
    match source with
    | some s =>
      if s = "yahoo_finance" then
        (pickLatest CacheRow.ticker CacheRow.collected_at db.yahoo_finance_cache
          ticker).map (fun r => (r.data, r.collected_at))
      else if s = "alpha_vantage" then
        (pickLatest CacheRow.ticker CacheRow.collected_at db.alpha_vantage_cache
          ticker).map (fun r => (r.data, r.collected_at))
      else none
    | none =>
      (pickLatest CombinedRow.ticker CombinedRow.collected_at db.combined_cache
        ticker).map (fun r => (r.data, r.collected_at))
  match fetched with
  | none => none
  | some (d, c) =>
    if (now : ℤ) - (c : ℤ) ≤ (max_age_hours : ℤ) * 3600 then some d else none

/-- EnhancedCachingSystem.get_all_cached_tickers (lines 293-314), success
path: `SELECT DISTINCT ticker` over the chosen table (first occurrences). -/
def get_all_cached_tickers_ok (db : CacheDB) (source : Option String) :
    List String :=
  match source with
  | some s =>
    if s = "yahoo_finance" then (db.yahoo_finance_cache.map CacheRow.ticker).eraseDups
    else if s = "alpha_vantage" then (db.alpha_vantage_cache.map CacheRow.ticker).eraseDups
    else []
  | none => (db.combined_cache.map CombinedRow.ticker).eraseDups

/-- EnhancedCachingSystem.cleanup_old_cache (lines 352-381). Deletes, from
each table, the rows with `cache_date` strictly before the calendar date of
`now - max_age_days`; updates `last_cache_cleanup` when anything was deleted.
The Python function computes `total_deleted` only to log it and has NO return
statement, so its value as seen by a caller is `None`: the third component of
the result is that returned value, always `none`. On a storage failure the
handler swallows the exception and the state is unchanged. -/
def cleanup_old_cache (db : CacheDB) (md : Metadata) (max_age_days : Nat)
    (now : Nat) (io_fails : Bool) : CacheDB × Metadata × Option Nat :=
  if io_fails then (db, md, none)
  else
    let cutoff := dateOf (now - max_age_days * 86400)
    let yKeep := db.yahoo_finance_cache.filter (fun r => decide (cutoff ≤ r.cache_date))
    let aKeep := db.alpha_vantage_cache.filter (fun r => decide (cutoff ≤ r.cache_date))
    let cKeep := db.combined_cache.filter (fun r => decide (cutoff ≤ r.cache_date))
    let total :=
      db.yahoo_finance_cache.countP (fun r => decide (r.cache_date < cutoff)) +
      db.alpha_vantage_cache.countP (fun r => decide (r.cache_date < cutoff)) +
      db.combined_cache.countP (fun r => decide (r.cache_date < cutoff))
    let md1 := if 0 < total then { md with last_cache_cleanup := some (.iso now) } else md
    (⟨yKeep, aKeep, cKeep⟩, md1, none)

/-- get_from_cache with its outer `try/except` (lines 244-291): any storage
failure (connection, query, JSON decode) is caught and logged, and the caller
sees `None`. -/
def get_from_cache (db : CacheDB) (ticker : String) (source : Option String)
    (max_age_hours : Nat) (now : Nat) (io_fails : Bool) : Option Row :=
  if io_fails then none else get_from_cache_ok db ticker source max_age_hours now

/-- save_to_cache with its outer `try/except` (lines 204-242): a storage
failure before the final commit leaves the database unchanged and the method
returns normally (the exception is only logged). -/
def save_to_cache (db : CacheDB) (source ticker : String) (data : Row)
    (now : Nat) (io_fails : Bool) : CacheDB :=
  if io_fails then db else save_to_cache_ok db source ticker data now

/-- get_all_cached_tickers with its outer `try/except` (lines 293-314): a
storage failure yields the empty list. -/
def get_all_cached_tickers (db : CacheDB) (source : Option String)
    (io_fails : Bool) : List String :=
  if io_fails then [] else get_all_cached_tickers_ok db source

/-! DataFrame model and the enrichment pipeline of
`multi_source_stock_data.py`. -/

/-- A pandas DataFrame: its list of rows. All rows of a frame produced by the
system share one ordered column list; `data.columns` is read off the first
row. -/
structure DF where
  rows : List Row
deriving DecidableEq, Repr

/-- The values of one column across the frame (`none` where the row lacks the
column). -/
def dfGetCol (df : DF) (c : String) : List (Option (Option Val)) :=
  df.rows.map (fun r => rowGet r c)

/-- Column membership test (`c in data.columns`), read off the first row. -/
def dfHasCol (df : DF) (c : String) : Bool :=
  match df.rows with
  | [] => false
  | r :: _ => rowHas r c

/-- Number of columns (`len(data.columns)`), read off the first row. -/
def dfNumCols (df : DF) : Nat :=
  match df.rows with
  | [] => 0
  | r :: _ => r.length

/-- Column assignment `data[c] = f(row)` applied row-wise: pandas replaces the
column in place when present and appends it otherwise. -/
def dfAssign (df : DF) (c : String) (f : Row → Option Val) : DF :=
  ⟨df.rows.map (fun r => rowSet r c (f r))⟩

/-- Element-wise division of two optional scalars. NaN (either operand
missing or non-numeric) propagates to NaN. The sources below only divide
after replacing a zero denominator by 1; division by zero (which pandas turns
into ±inf) is mapped to NaN here — no claim proved depends on that case. -/
def numDiv : Option Val → Option Val → Option Val
  | some (.num a), some (.num b) => if b.num = 0 then none else some (.num (a / b))
  | _, _ => none

/-- Element-wise subtraction; NaN propagates. -/
def numSub : Option Val → Option Val → Option Val
  | some (.num a), some (.num b) => some (.num (a - b))
  | _, _ => none

/-- Element-wise multiplication by a scalar; NaN propagates. -/
def numMul (a : Option Val) (k : Qv) : Option Val :=
  match a with
  | some (.num x) => some (.num (x * k))
  | _ => none

/-- `series.replace(0, 1)` element-wise. -/
def replaceZero (a : Option Val) : Option Val :=
  match a with
  | some (.num x) => if x.num = 0 then some (.num 1) else some (.num x)
  | v => v

/-- `series.fillna(d)` element-wise. -/
def fillna (d : Qv) (a : Option Val) : Option Val :=
  match a with
  | none => some (.num d)
  | some v => some v

/-- `pd.cut(market_cap, bins=[0, 2e9, 10e9, 100e9, inf], labels=[...])`:
right-closed bins, values outside (0, inf) and NaN map to NaN. -/
def marketCapCategory (a : Option Val) : Option Val :=
  match a with
  | some (.num m) =>
    if m ≤ 0 then none
    else if m ≤ 2000000000 then some (.str "Small Cap")
    else if m ≤ 10000000000 then some (.str "Mid Cap")
    else if m ≤ 100000000000 then some (.str "Large Cap")
    else some (.str "Mega Cap")
  | _ => none

/-- First group of MultiSourceStockDataSystem._add_calculated_metrics (lines
576-578): `volume_ratio = volume / avg_volume_30d.replace(0,1)` then
`fillna(1)`, guarded by presence of both source columns. -/
def calcVolumeGroup (df : DF) : DF :=
  if dfHasCol df "volume" && dfHasCol df "avg_volume_30d" then
    let a := dfAssign df "volume_ratio"
      (fun r => numDiv (joinGet r "volume") (replaceZero (joinGet r "avg_volume_30d")))
    dfAssign a "volume_ratio" (fun r => fillna 1 (joinGet r "volume_ratio"))
  else df

/-- Second group (lines 580-581): price momentum from current vs previous
close, `fillna(0)`. -/
def calcMomentumGroup (df : DF) : DF :=
  if dfHasCol df "current_price" && dfHasCol df "prev_close" then
    dfAssign df "price_momentum"
      (fun r => fillna 0 (numMul
        (numDiv (numSub (joinGet r "current_price") (joinGet r "prev_close"))
          (joinGet r "prev_close")) 100))
  else df

/-- Third group (lines 583-588): market-cap size category via `pd.cut`. -/
def calcMarketCapGroup (df : DF) : DF :=
  if dfHasCol df "market_cap" then
    dfAssign df "market_cap_category" (fun r => marketCapCategory (joinGet r "market_cap"))
  else df

/-- Fourth group (lines 591-593): `peg_ratio_calculated =
pe_ratio / (eps_growth * 100).replace(0,1)` then `fillna(0)`. -/
def calcPegGroup (df : DF) : DF :=
  if dfHasCol df "pe_ratio" && dfHasCol df "eps_growth" then
    let a := dfAssign df "peg_ratio_calculated"
      (fun r => numDiv (joinGet r "pe_ratio") (replaceZero (numMul (joinGet r "eps_growth") 100)))
    dfAssign a "peg_ratio_calculated" (fun r => fillna 0 (joinGet r "peg_ratio_calculated"))
  else df

/-- MultiSourceStockDataSystem._add_calculated_metrics (lines 572-599): the
four groups in source order. -/
def add_calculated_metrics (df : DF) : DF :=
  calcPegGroup (calcMarketCapGroup (calcMomentumGroup (calcVolumeGroup df)))

/-- The required-field set with its defaults
(MultiSourceStockDataSystem._ensure_required_fields, lines 604-623), in dict
order. -/
def required_field_defaults : List (String × Qv) :=
  [("debt_to_equity", 1), ("free_cash_flow", 0), ("interest_income_ratio", 0),
   ("volume", 1000000), ("average_volume", 1000000), ("bid_ask_spread", 0.01),
   ("shares_outstanding", 10000000), ("trend_30d", 0), ("trend_90d", 0),
   ("rsi", 50), ("volatility", 0.2), ("eps", 1), ("eps_growth", 0.1),
   ("revenue_growth", 0.1), ("profit_margin", 0.15), ("pe_ratio", 20),
   ("pb_ratio", 2), ("roe", 0.15)]

/-- Names of the required fields. -/
def required_field_names : List String := required_field_defaults.map Prod.fst

/-- Generic pass of `_ensure_required_fields` over a list of (field, default)
pairs: add each field as a constant column when absent. -/
def ensureFieldsGo (l : List (String × Qv)) (df : DF) : DF :=
  l.foldl (fun d p => if dfHasCol d p.1 then d else dfAssign d p.1 (fun _ => some (.num p.2))) df

/-- MultiSourceStockDataSystem._ensure_required_fields (lines 601-634). -/
def ensure_required_fields (df : DF) : DF :=
  ensureFieldsGo required_field_defaults df

/-- First assignment of _add_data_quality_indicators (line 640):
`data['data_completeness'] = data.notna().sum(axis=1)` — counted over the
columns present before this assignment. -/
def qualityCompleteness (df : DF) : DF :=
  dfAssign df "data_completeness" (fun r => some (.num (countSome r)))

/-- Second assignment (line 641): completeness divided by `len(data.columns)`
(which at that point already includes the `data_completeness` column), times
100. -/
def qualityPct (df : DF) : DF :=
  dfAssign df "data_completeness_pct"
    (fun r => numMul (numDiv (joinGet r "data_completeness")
      (some (.num (dfNumCols df)))) 100)

/-- Third assignment (line 644): `data['data_age_hours'] = 0`. -/
def qualityAge (df : DF) : DF :=
  dfAssign df "data_age_hours" (fun _ => some (.num 0))

/-- Final step (lines 647-648): default `data_source` only when the column is
absent. -/
def qualityDataSource (df : DF) : DF :=
  if dfHasCol df "data_source" then df
  else dfAssign df "data_source" (fun _ => some (.str "Multi-Source System"))

/-- MultiSourceStockDataSystem._add_data_quality_indicators (lines 636-654). -/
def add_data_quality_indicators (df : DF) : DF :=
  qualityDataSource (qualityAge (qualityPct (qualityCompleteness df)))

/-- MultiSourceStockDataSystem._enrich_stock_data (lines 549-570): calculated
metrics, then required-field defaults, then data-quality indicators. -/
def enrich_stock_data (df : DF) : DF :=
  add_data_quality_indicators (ensure_required_fields (add_calculated_metrics df))

/-- Stage-shape predicate: `F` acts row-wise (its output rows are the image of
a per-row transformer) and that transformer leaves every column outside `T`
untouched. All enrichment stages have this shape. -/
def StageMaps (F : DF → DF) (T : List String) : Prop :=
  ∀ df : DF, ∃ Φ : Row → Row,
    (F df).rows = df.rows.map Φ ∧
    ∀ r c, c ∉ T → rowGet (Φ r) c = rowGet r c

/-- Columns assigned by `_add_calculated_metrics`. -/
def calc_targets : List String :=
  ["volume_ratio", "price_momentum", "market_cap_category", "peg_ratio_calculated"]

/-- Columns assigned by `_add_data_quality_indicators`. -/
def quality_targets : List String :=
  ["data_completeness", "data_completeness_pct", "data_age_hours", "data_source"]

/-! Synthetic generator and fallback orchestrator
(`multi_source_stock_data.py`). -/

/-- Python `round(q, n)` abstracted over exact rationals as half-up rounding
to `n` decimals. (CPython rounds binary floats half-to-even; the difference
only shows at exact ties or float error, on which no claim proved depends.) -/
def pyRound (q : Qv) (n : Nat) : Qv :=
  ⟨Qv.floor (q * ⟨tenPow n, 1⟩ + ⟨1, 2⟩), tenPow n⟩

/-- Record field holding a (non-null) number. -/
def nfld (c : String) (x : Qv) : String × Option Val := (c, some (.num x))

/-- Record field holding a (non-null) string. -/
def sfld (c : String) (s : String) : String × Option Val := (c, some (.str s))

/-- Record field holding a nullable number (`None` when the upstream value was
missing). -/
def ofld (c : String) (x : Option Qv) : String × Option Val := (c, x.map .num)

/-- MultiSourceStockDataSystem._get_sample_sector (lines 539-547). -/
def get_sample_sector (t : String) : String :=
  if t = "AAPL" ∨ t = "MSFT" ∨ t = "GOOGL" ∨ t = "META" ∨ t = "NVDA" ∨
     t = "ADBE" ∨ t = "CRM" then "Technology"
  else if t = "AMZN" ∨ t = "TSLA" then "Consumer Cyclical"
  else if t = "NFLX" then "Communication Services"
  else "Technology"

/-- One synthetic record of
MultiSourceStockDataSystem._generate_sample_stock_data (lines 433-528):
deterministic formulas keyed by the ticker's index `i` in the request.
`data_collected_at` (an ISO string in Python) is carried as the numeric
instant. -/
def generate_sample_row (i : Nat) (t : String) (now : Nat) : Row :=
  let q : Qv := (i : Qv)
  [sfld "ticker" t,
   sfld "company_name" (t ++ " Corporation"),
   sfld "sector" (get_sample_sector t),
   sfld "industry" "Technology",
   nfld "current_price" (pyRound (100 + q * 25 + q * 10) 2),
   nfld "change" (pyRound (q * 2 - 5) 2),
   nfld "change_percent" (pyRound ((q * 2 - 5) / 100 * 100) 2),
   nfld "high_52w" (pyRound (120 + q * 30) 2),
   nfld "low_52w" (pyRound (80 + q * 20) 2),
   nfld "open" (pyRound (99 + q * 25) 2),
   nfld "prev_close" (pyRound (100 + q * 25) 2),
   nfld "volume" (1000000 + q * 500000),
   nfld "avg_volume_30d" (1200000 + q * 600000),
   nfld "volume_ratio" (pyRound (0.8 + q * 0.1) 2),
   nfld "market_cap" (1000000000 + q * 50000000000),
   nfld "enterprise_value" (1100000000 + q * 55000000000),
   nfld "shares_outstanding" (10000000 + q * 1000000),
   nfld "float_shares" (9000000 + q * 900000),
   nfld "pe_ratio" (pyRound (15 + q * 2) 2),
   nfld "forward_pe" (pyRound (14 + q * 1.5) 2),
   nfld "peg_ratio" (pyRound (1.2 + q * 0.1) 2),
   nfld "pb_ratio" (pyRound (2.5 + q * 0.3) 2),
   nfld "ps_ratio" (pyRound (3.0 + q * 0.4) 2),
   nfld "ev_ebitda" (pyRound (12 + q * 1.5) 2),
   nfld "debt_to_equity" (pyRound (0.3 + q * 0.05) 2),
   nfld "debt_to_assets" (pyRound (0.2 + q * 0.03) 2),
   nfld "current_ratio" (pyRound (1.5 + q * 0.1) 2),
   nfld "quick_ratio" (pyRound (1.2 + q * 0.08) 2),
   nfld "free_cash_flow" (100000000 + q * 50000000),
   nfld "operating_cash_flow" (150000000 + q * 75000000),
   nfld "profit_margin" (pyRound (0.15 + q * 0.02) 3),
   nfld "operating_margin" (pyRound (0.20 + q * 0.025) 3),
   nfld "gross_margin" (pyRound (0.45 + q * 0.03) 3),
   nfld "ebitda_margins" (pyRound (0.25 + q * 0.03) 3),
   nfld "revenue_growth" (pyRound (0.10 + q * 0.02) 3),
   nfld "earnings_growth" (pyRound (0.15 + q * 0.025) 3),
   nfld "eps_growth" (pyRound (0.12 + q * 0.02) 3),
   nfld "roe" (pyRound (0.18 + q * 0.02) 3),
   nfld "roa" (pyRound (0.12 + q * 0.015) 3),
   nfld "roic" (pyRound (0.15 + q * 0.02) 3),
   nfld "asset_turnover" (pyRound (0.8 + q * 0.05) 2),
   nfld "eps" (pyRound (2.5 + q * 0.5) 2),
   nfld "forward_eps" (pyRound (2.8 + q * 0.6) 2),
   nfld "book_value" (pyRound (25 + q * 3) 2),
   nfld "dividend_rate" (pyRound (1.2 + q * 0.1) 2),
   nfld "dividend_yield" (pyRound (0.02 + q * 0.005) 3),
   nfld "payout_ratio" (pyRound (0.25 + q * 0.03) 3),
   sfld "recommendation" "Buy",
   sfld "recommendation_key" "buy",
   nfld "target_price" (pyRound (110 + q * 30) 2),
   nfld "target_high" (pyRound (120 + q * 35) 2),
   nfld "target_low" (pyRound (95 + q * 25) 2),
   nfld "number_of_analysts" (15 + q * 2),
   nfld "trend_30d" (pyRound (5 + q * 2) 2),
   nfld "trend_90d" (pyRound (12 + q * 3) 2),
   nfld "rsi" (pyRound (55 + q * 3) 2),
   nfld "volatility" (pyRound (0.25 + q * 0.02) 3),
   nfld "beta" (pyRound (1.1 + q * 0.05) 2),
   nfld "short_ratio" (pyRound (2.5 + q * 0.3) 2),
   nfld "shares_short" (500000 + q * 100000),
   nfld "shares_short_prev_month" (480000 + q * 95000),
   nfld "data_collected_at" (now : Qv),
   nfld "cache_date" (dateOf now : Qv),
   sfld "data_source" "Sample Data (Final Fallback)"]

/-- MultiSourceStockDataSystem._generate_sample_stock_data (lines 426-537):
one synthetic record per requested ticker, in request order. -/
def generate_sample_stock_data (tickers : List String) (now : Nat) : DF :=
  ⟨tickers.enum.map (fun p => generate_sample_row p.1 p.2 now)⟩

/-- Result of AlphaVantageDataSource.get_stock_quote (lines 58-98): the
numeric fields (each possibly null when the upstream sends the string
`'None'`). A failed or empty response is `none` at the oracle. -/
structure AVQuote where
  current_price : Option Qv
  change : Option Qv
  change_percent : Option Qv
  open_price : Option Qv
  high : Option Qv
  low : Option Qv
  prev_close : Option Qv
  volume : Option Qv

/-- Result of AlphaVantageDataSource.get_company_overview (lines 100-145). -/
structure AVOverview where
  company_name : String
  sector : String
  industry : String
  market_cap : Option Qv
  pe_val : Option Qv
  pb_val : Option Qv
  ps_val : Option Qv
  peg_val : Option Qv
  debt_to_equity : Option Qv
  profit_margin : Option Qv
  operating_margin : Option Qv
  roe : Option Qv
  roa : Option Qv
  eps : Option Qv
  dividend_yield : Option Qv

/-- Result of AlphaVantageDataSource.get_income_statement (lines 161-213):
the growth figures consumed by the collectors. -/
structure AVIncome where
  revenue_growth : Qv
  earnings_growth : Qv

/-- The per-ticker record assembled by
MultiSourceStockDataSystem._collect_alpha_vantage_data (lines 376-384):
`{**quote_data, **overview_data, growth fields, timestamps}` in Python dict
merge order; `ticker` and `data_source` keep the quote dict's position with
the overview dict's (identical) values. -/
def alpha_stock_info (t : String) (q : AVQuote) (o : AVOverview)
    (inc : Option AVIncome) (now : Nat) : Row :=
  [sfld "ticker" t,
   ofld "current_price" q.current_price,
   ofld "change" q.change,
   ofld "change_percent" q.change_percent,
   ofld "open" q.open_price,
   ofld "high" q.high,
   ofld "low" q.low,
   ofld "prev_close" q.prev_close,
   ofld "volume" q.volume,
   sfld "data_source" "Alpha Vantage",
   sfld "company_name" o.company_name,
   sfld "sector" o.sector,
   sfld "industry" o.industry,
   ofld "market_cap" o.market_cap,
   ofld "pe_ratio" o.pe_val,
   ofld "pb_ratio" o.pb_val,
   ofld "ps_ratio" o.ps_val,
   ofld "peg_ratio" o.peg_val,
   ofld "debt_to_equity" o.debt_to_equity,
   ofld "profit_margin" o.profit_margin,
   ofld "operating_margin" o.operating_margin,
   ofld "roe" o.roe,
   ofld "roa" o.roa,
   ofld "eps" o.eps,
   ofld "dividend_yield" o.dividend_yield,
   nfld "revenue_growth" (match inc with | some v => v.revenue_growth | none => 0),
   nfld "earnings_growth" (match inc with | some v => v.earnings_growth | none => 0),
   nfld "eps_growth" (match inc with | some v => v.earnings_growth | none => 0),
   nfld "data_collected_at" (now : Qv),
   nfld "cache_date" (dateOf now : Qv)]

/-- Environment of the fallback orchestrator: adapter availability flags
(`source_status`), the outcome of a Yahoo Finance batch call (`none` models a
raised exception), the Alpha Vantage per-ticker oracles (a `none` reply
models any failure for that ticker), and the local CSV cache contents
(`none`: no cache file). -/
structure OrchEnv where
  yahoo_finance : Bool
  alpha_vantage : Bool
  enhanced_caching : Bool
  yahoo_result : Option (List Row)
  alpha_quote : String → Option AVQuote
  alpha_overview : String → Option AVOverview
  alpha_income : String → Option AVIncome
  local_csv : Option (List Row)

/-- MultiSourceStockDataSystem._collect_alpha_vantage_data (lines 352-397):
per ticker, skip unless both quote and overview succeed; the income statement
is optional. -/
def collect_alpha_vantage_data (env : OrchEnv) (tickers : List String)
    (now : Nat) : List Row :=
  tickers.filterMap (fun t =>
    match env.alpha_quote t, env.alpha_overview t with
    | some q, some o => some (alpha_stock_info t q o (env.alpha_income t) now)
    | _, _ => none)

/-- Shared logic of MultiSourceStockDataSystem._get_cached_stock_data (lines
399-424) and SmartCacheFirstSystem._get_local_cache_data (lines 213-242):
load the newest local CSV cache and filter its rows to the requested tickers
(`cached_data[cached_data['ticker'].isin(tickers)]`). -/
def get_local_cache_data (csv : Option (List Row)) (tickers : List String) :
    List Row :=
  match csv with
  | none => []
  | some rows =>
    rows.filter (fun r =>
      match rowGet r "ticker" with
      | some (some (.str t)) => tickers.contains t
      | _ => false)

/-- Shared logic of `_store_data_in_enhanced_cache` (multi-source lines
327-350 / smart lines 295-317): when the enhanced cache is present, record
the API call and the successful update, then save each row with a truthy
`ticker` field. -/
def store_data_in_enhanced_cache (ec : Bool) (md : Metadata) (db : CacheDB)
    (source : String) (rows : List Row) (now : Nat) : Metadata × CacheDB :=
  if ec then
    let md1 := record_successful_update (record_api_call md source now) source now
    (md1,
     rows.foldl (fun d r =>
       match rowGet r "ticker" with
       | some (some (.str t)) => if t = "" then d else save_to_cache_ok d source t r now
       | _ => d) db)
  else (md, db)

/-- Observable outcome of one orchestrator call. `invoked` lists the adapters
actually attempted (in order); `recorded_calls` the sources for which
`record_api_call` ran. -/
structure OrchResult where
  data : DF
  invoked : List String
  recorded_calls : List String
  metadata : Metadata
  cache_db : CacheDB

/-- MultiSourceStockDataSystem.get_comprehensive_stock_data (lines 261-325):
Yahoo Finance first (skipped when unavailable or `force_refresh`; an
exception or empty frame falls through), then Alpha Vantage, then the local
CSV cache, then synthetic data; the chosen batch is stored in the enhanced
cache (recording the call) when it came from an adapter, and every returned
frame passes through `_enrich_stock_data`. -/
def get_comprehensive_stock_data (env : OrchEnv) (md : Metadata) (db : CacheDB)
    (tickers : List String) (force_refresh : Bool) (now : Nat) : OrchResult :=
  let yahooTried := env.yahoo_finance && !force_refresh
  let yahooBatch : Option (List Row) :=
    if yahooTried then
      match env.yahoo_result with
      | some rows => if rows.isEmpty then none else some rows
      | none => none
    else none
  match yahooBatch with
  | some rows =>
    let st := store_data_in_enhanced_cache env.enhanced_caching md db "yahoo_finance" rows now
    { data := enrich_stock_data ⟨rows⟩, invoked := ["yahoo_finance"],
      recorded_calls := if env.enhanced_caching then ["yahoo_finance"] else [],
      metadata := st.1, cache_db := st.2 }
  | none =>
    let invoked0 := if yahooTried then ["yahoo_finance"] else []
    let alphaBatch : Option (List Row) :=
      if env.alpha_vantage then
        let rows := collect_alpha_vantage_data env tickers now
        if rows.isEmpty then none else some rows
      else none
    match alphaBatch with
    | some rows =>
      let st := store_data_in_enhanced_cache env.enhanced_caching md db "alpha_vantage" rows now
      { data := enrich_stock_data ⟨rows⟩,
        invoked := invoked0 ++ ["alpha_vantage"],
        recorded_calls := if env.enhanced_caching then ["alpha_vantage"] else [],
        metadata := st.1, cache_db := st.2 }
    | none =>
      let invoked1 := invoked0 ++ (if env.alpha_vantage then ["alpha_vantage"] else [])
      let cached := get_local_cache_data env.local_csv tickers
      if !cached.isEmpty then
        { data := enrich_stock_data ⟨cached⟩, invoked := invoked1,
          recorded_calls := [], metadata := md, cache_db := db }
      else
        { data := enrich_stock_data (generate_sample_stock_data tickers now),
          invoked := invoked1, recorded_calls := [], metadata := md, cache_db := db }

/-! Smart cache-first system (`smart_cache_first_system.py`). -/

/-- Environment of the smart system: availability flags, Yahoo call outcome,
Alpha Vantage oracles, local CSV contents. -/
structure SmartEnv where
  enhanced_caching : Bool
  yahoo_finance : Bool
  alpha_vantage : Bool
  yahoo_result : Option (List Row)
  alpha_quote : String → Option AVQuote
  alpha_overview : String → Option AVOverview
  local_csv : Option (List Row)

/-- The per-ticker record of SmartCacheFirstSystem._collect_alpha_vantage_data
(lines 269-275): like the multi-source one but without the income statement;
the trailing explicit `data_source` entry overwrites the merged key in place
with the same value. -/
def alpha_stock_info_smart (t : String) (q : AVQuote) (o : AVOverview)
    (now : Nat) : Row :=
  [sfld "ticker" t,
   ofld "current_price" q.current_price,
   ofld "change" q.change,
   ofld "change_percent" q.change_percent,
   ofld "open" q.open_price,
   ofld "high" q.high,
   ofld "low" q.low,
   ofld "prev_close" q.prev_close,
   ofld "volume" q.volume,
   sfld "data_source" "Alpha Vantage",
   sfld "company_name" o.company_name,
   sfld "sector" o.sector,
   sfld "industry" o.industry,
   ofld "market_cap" o.market_cap,
   ofld "pe_ratio" o.pe_val,
   ofld "pb_ratio" o.pb_val,
   ofld "ps_ratio" o.ps_val,
   ofld "peg_ratio" o.peg_val,
   ofld "debt_to_equity" o.debt_to_equity,
   ofld "profit_margin" o.profit_margin,
   ofld "operating_margin" o.operating_margin,
   ofld "roe" o.roe,
   ofld "roa" o.roa,
   ofld "eps" o.eps,
   ofld "dividend_yield" o.dividend_yield,
   nfld "data_collected_at" (now : Qv),
   nfld "cache_date" (dateOf now : Qv)]

/-- SmartCacheFirstSystem._collect_alpha_vantage_data (lines 244-293). -/
def collect_alpha_vantage_data_smart (env : SmartEnv) (tickers : List String)
    (now : Nat) : List Row :=
  tickers.filterMap (fun t =>
    match env.alpha_quote t, env.alpha_overview t with
    | some q, some o => some (alpha_stock_info_smart t q o now)
    | _, _ => none)

/-- One record of SmartCacheFirstSystem._generate_sample_data (lines
326-338). -/
def generate_sample_row_smart (i : Nat) (t : String) (now : Nat) : Row :=
  let q : Qv := (i : Qv)
  [sfld "ticker" t,
   sfld "company_name" (t ++ " Corporation"),
   sfld "sector" "Technology",
   nfld "current_price" (pyRound (100 + q * 25) 2),
   nfld "change" (pyRound (q * 2 - 5) 2),
   nfld "volume" (1000000 + q * 500000),
   nfld "market_cap" (1000000000 + q * 50000000000),
   nfld "pe_ratio" (pyRound (15 + q * 2) 2),
   sfld "data_source" "Sample Data (Cache Fallback)",
   nfld "data_collected_at" (now : Qv)]

/-- SmartCacheFirstSystem._generate_sample_data (lines 319-347). -/
def generate_sample_data_smart (tickers : List String) (now : Nat) : List Row :=
  tickers.enum.map (fun p => generate_sample_row_smart p.1 p.2 now)

/-- SmartCacheFirstSystem._can_call_apis_today (lines 95-118): `False`
without the enhanced cache; otherwise check Yahoo Finance then Alpha Vantage
in order, threading the metadata (a day-rollover check persists its reset
even if the overall answer is `False`). -/
def can_call_apis_today (env : SmartEnv) (md : Metadata) (now : Nat) :
    Bool × Metadata :=
  if !env.enhanced_caching then (false, md)
  else if env.yahoo_finance then
    let r := can_call_api_today md "yahoo_finance" now
    if r.1 then (true, r.2)
    else if env.alpha_vantage then can_call_api_today r.2 "alpha_vantage" now
    else (false, r.2)
  else if env.alpha_vantage then can_call_api_today md "alpha_vantage" now
  else (false, md)

/-- SmartCacheFirstSystem._use_cache_only (lines 159-186): local CSV cache
first, then the enhanced (durable) cache via per-ticker `get_from_cache`
(default freshness window 24h), then synthetic data. -/
def use_cache_only (env : SmartEnv) (db : CacheDB) (tickers : List String)
    (now : Nat) : DF :=
  let localRows := get_local_cache_data env.local_csv tickers
  if !localRows.isEmpty then ⟨localRows⟩
  else if env.enhanced_caching then
    let enh := tickers.filterMap (fun t => get_from_cache_ok db t none 24 now)
    if !enh.isEmpty then ⟨enh⟩ else ⟨generate_sample_data_smart tickers now⟩
  else ⟨generate_sample_data_smart tickers now⟩

/-- SmartCacheFirstSystem._collect_fresh_data (lines 120-157): Yahoo Finance
(storing and recording on success), then Alpha Vantage, then
`_use_cache_only`. Returns the frame, the metadata and cache database after
any stores, and the adapters invoked. -/
def collect_fresh_data (env : SmartEnv) (md : Metadata) (db : CacheDB)
    (tickers : List String) (now : Nat) :
    DF × Metadata × CacheDB × List String :=
  let yahooBatch : Option (List Row) :=
    if env.yahoo_finance then
      match env.yahoo_result with
      | some rows => if rows.isEmpty then none else some rows
      | none => none
    else none
  match yahooBatch with
  | some rows =>
    let st := store_data_in_enhanced_cache env.enhanced_caching md db "yahoo_finance" rows now
    (⟨rows⟩, st.1, st.2, ["yahoo_finance"])
  | none =>
    let invoked0 := if env.yahoo_finance then ["yahoo_finance"] else []
    let alphaBatch : Option (List Row) :=
      if env.alpha_vantage then
        let rows := collect_alpha_vantage_data_smart env tickers now
        if rows.isEmpty then none else some rows
      else none
    match alphaBatch with
    | some rows =>
      let st := store_data_in_enhanced_cache env.enhanced_caching md db "alpha_vantage" rows now
      (⟨rows⟩, st.1, st.2, invoked0 ++ ["alpha_vantage"])
    | none =>
      let invoked1 := invoked0 ++ (if env.alpha_vantage then ["alpha_vantage"] else [])
      (use_cache_only env db tickers now, md, db, invoked1)

/-- SmartCacheFirstSystem.get_stock_data_smart (lines 68-93): compute
`_can_call_apis_today` (side effects on the metadata persist either way);
take the fresh-data path only when an API may be called today AND
`force_refresh` is false, else serve from cache only. The last component
lists the adapters invoked. -/
def get_stock_data_smart (env : SmartEnv) (md : Metadata) (db : CacheDB)
    (tickers : List String) (force_refresh : Bool) (now : Nat) :
    DF × Metadata × CacheDB × List String :=
  let c := can_call_apis_today env md now
  if c.1 && !force_refresh then collect_fresh_data env c.2 db tickers now
  else (use_cache_only env db tickers now, c.2, db, [])

/-! Concrete example values used to instantiate the theorems. -/

/-- Metadata of a fresh installation (no sources recorded). -/
def emptyMetadata : Metadata := ⟨[], none, none⟩

/-- An empty cache database. -/
def emptyCacheDB : CacheDB := ⟨[], [], []⟩

/-- An Alpha Vantage quote with no numeric data. -/
def sampleQuote : AVQuote := ⟨none, none, none, none, none, none, none, none⟩

/-- An Alpha Vantage company overview with no numeric data. -/
def sampleOverview : AVOverview :=
  ⟨"ZZZZ Corp", "Technology", "Technology", none, none, none, none, none, none,
   none, none, none, none, none, none⟩

/-- An orchestrator environment where Yahoo Finance raises and Alpha Vantage
answers every ticker. -/
def claim2_env : OrchEnv :=
  ⟨true, true, false, none, fun s => some sampleQuote, fun s => some sampleOverview,
   fun s => none, none⟩

/-! Basic lemmas about ordered association lists. -/

/-- Lookup after an update: the updated key reads the new value, any other key
is unchanged. -/
theorem alookup_aset {β : Type} (l : List (String × β)) (c c' : String) (v : β) :
    alookup (aset l c v) c' = if c' = c then some v else alookup l c' := by
  induction l with
  | nil =>
    simp only [aset, alookup]
    by_cases h : c' = c
    · subst h; simp
    · rw [if_neg (fun hh => h hh.symm), if_neg h]
  | cons p rest ih =>
    simp only [aset]
    by_cases hp : p.1 = c
    · rw [if_pos hp]
      simp only [alookup]
      by_cases h : c' = c
      · subst h; simp
      · rw [if_neg (fun hh => h hh.symm), if_neg h,
          if_neg (show ¬ p.1 = c' from hp ▸ fun hh => h hh.symm)]
    · rw [if_neg hp]
      simp only [alookup]
      by_cases h : c' = c
      · subst h
        rw [if_pos rfl, if_neg (fun hh => hp hh), ih, if_pos rfl]
      · rw [if_neg h]
        by_cases hpc : p.1 = c'
        · rw [if_pos hpc, if_pos hpc]
        · rw [if_neg hpc, if_neg hpc, ih, if_neg h]

/-- Lookup of the updated key. -/
theorem alookup_aset_self {β : Type} (l : List (String × β)) (c : String) (v : β) :
    alookup (aset l c v) c = some v := by
  simp [alookup_aset]

/-- Lookup of a different key after an update. -/
theorem alookup_aset_ne {β : Type} (l : List (String × β)) {c c' : String}
    (v : β) (h : c' ≠ c) :
    alookup (aset l c v) c' = alookup l c' := by
  simp [alookup_aset, h]

/-! Claim C1 — the once-per-day budget check. -/

/-- C1. For a source with `max_daily_calls = 1`, `can_call_api_today` returns
true iff the source is unknown, or `last_api_call` is from a prior calendar
day, or `daily_calls < max_daily_calls`; in the prior-day case the persisted
metadata has the source's `daily_calls` reset to 0; and the once-per-day
scenario: after one `record_api_call`, a check on the same calendar day
returns false and a check after a day rollover returns true. The equivalence
is stated for metadata the tracker itself maintains: a recorded state always
carries a timestamp (`last_api_call = none` only with `daily_calls = 0`) and
its stored timestamps are well-formed. -/
theorem claim1_once_per_day (md : Metadata) (source : String)
    (now tRec tSame tNext : Nat)
    (hmax : ∀ sm, alookup md.sources source = some sm → sm.max_daily_calls = 1)
    (hinv : ∀ sm, alookup md.sources source = some sm →
      sm.last_api_call = none → sm.daily_calls = 0)
    (hwf : ∀ sm ts, alookup md.sources source = some sm →
      sm.last_api_call = some ts → ts ≠ RawTs.malformed) :
    ((can_call_api_today md source now).1 = true ↔
      (alookup md.sources source = none ∨
       (∃ sm t, alookup md.sources source = some sm ∧
          sm.last_api_call = some (.iso t) ∧ dateOf t < dateOf now) ∨
       (∃ sm, alookup md.sources source = some sm ∧
          sm.daily_calls < sm.max_daily_calls)))
    ∧ (∀ sm t, alookup md.sources source = some sm →
         sm.last_api_call = some (.iso t) → dateOf t < dateOf now →
         alookup (can_call_api_today md source now).2.sources source
           = some { sm with daily_calls := 0 })
    ∧ (dateOf tRec = dateOf tSame →
         (can_call_api_today (record_api_call md source tRec) source tSame).1 = false)
    ∧ (dateOf tRec < dateOf tNext →
         (can_call_api_today (record_api_call md source tRec) source tNext).1 = true) := by
  refine ⟨?_, ?_, ?_, ?_⟩
  · cases hsrc : alookup md.sources source with
    | none =>
      exact ⟨fun _ => Or.inl rfl, fun _ => by simp [can_call_api_today, hsrc]⟩
    | some sm =>
      cases hlast : sm.last_api_call with
      | none =>
        have hd : sm.daily_calls < sm.max_daily_calls := by
          rw [hinv sm hsrc hlast, hmax sm hsrc]; norm_num
        exact ⟨fun _ => Or.inr (Or.inr ⟨sm, rfl, hd⟩),
          fun _ => by simp [can_call_api_today, hsrc, hlast]⟩
      | some ts =>
        cases ts with
        | malformed => exact absurd rfl (hwf sm .malformed hsrc hlast)
        | iso t =>
          by_cases hday : dateOf t < dateOf now
          · exact ⟨fun _ => Or.inr (Or.inl ⟨sm, t, rfl, hlast, hday⟩),
              fun _ => by
                simp [can_call_api_today, hsrc, hlast, parseIso, if_pos hday]⟩
          · have hres : (can_call_api_today md source now).1
                = decide (sm.daily_calls < sm.max_daily_calls) := by
              simp [can_call_api_today, hsrc, hlast, parseIso, if_neg hday]
            rw [hres, decide_eq_true_eq]
            constructor
            · intro h; exact Or.inr (Or.inr ⟨sm, rfl, h⟩)
            · rintro (h | ⟨sm', t', h1, h2, h3⟩ | ⟨sm', h1, h2⟩)
              · exact Option.noConfusion h
              · injection h1 with he; subst he
                rw [hlast] at h2
                injection h2 with he2
                injection he2 with he3; subst he3
                exact absurd h3 hday
              · injection h1 with he; subst he
                exact h2
  · intro sm t hsrc hlast hday
    simp [can_call_api_today, hsrc, hlast, parseIso, if_pos hday, alookup_aset_self]
  · intro hsame
    have hnotlt : ¬ dateOf tRec < dateOf tSame := by rw [hsame]; exact lt_irrefl _
    have hmax1 : ((alookup md.sources source).getD defaultSourceMeta).max_daily_calls = 1 := by
      cases hsrc : alookup md.sources source with
      | none => rfl
      | some sm => simpa using hmax sm hsrc
    simp [can_call_api_today, record_api_call, alookup_aset_self, parseIso,
      if_neg hnotlt, hmax1]
  · intro hnext
    simp [can_call_api_today, record_api_call, alookup_aset_self, parseIso,
      if_pos hnext]

/-- Witness for C1: the empty metadata store, `yahoo_finance`, a call recorded
at instant 100, a second check at instant 200 (same day 0) and one at instant
172800 (day 2). -/
theorem claim1_once_per_day_witness :
    (can_call_api_today
      (record_api_call ⟨[], none, none⟩ "yahoo_finance" 100) "yahoo_finance" 200).1 = false ∧
    (can_call_api_today
      (record_api_call ⟨[], none, none⟩ "yahoo_finance" 100) "yahoo_finance" 172800).1 = true := by
  have h := claim1_once_per_day ⟨[], none, none⟩ "yahoo_finance" 0 100 200 172800
    (by intro sm hsm; simp [alookup] at hsm)
    (by intro sm hsm; simp [alookup] at hsm)
    (by intro sm ts hsm; simp [alookup] at hsm)
  exact ⟨h.2.2.1 (by decide), h.2.2.2 (by decide)⟩

/-! Claim C9 — fail-open behaviour of the budget check under storage errors. -/

/-- C9. If loading the metadata store fails, or the stored `last_api_call`
timestamp cannot be parsed, the exception is swallowed and
`can_call_api_today` answers true — the once-per-day limit is not enforced
under storage errors. -/
theorem claim9_fail_open :
    (∀ (e : Unit) (source : String) (now : Nat),
       (can_call_api_today (load_metadata (.error e)) source now).1 = true) ∧
    (∀ (md : Metadata) (source : String) (sm : SourceMeta) (now : Nat),
       alookup md.sources source = some sm →
       sm.last_api_call = some .malformed →
       (can_call_api_today md source now).1 = true) := by
  constructor
  · intro e source now
    simp [load_metadata, can_call_api_today, alookup]
  · intro md source sm now h1 h2
    simp [can_call_api_today, h1, h2, parseIso]

/-- Witness for C9: a metadata file whose `yahoo_finance` entry is already at
5 recorded calls (over the limit of 1) but has an unparsable timestamp: the
check still permits a call; and a failed metadata load also permits it. -/
theorem claim9_fail_open_witness :
    (can_call_api_today (load_metadata (.error ())) "yahoo_finance" 7).1 = true ∧
    (can_call_api_today
      ⟨[("yahoo_finance",
         { last_api_call := some .malformed, last_successful_update := none,
           daily_calls := 5, max_daily_calls := 1 })], none, none⟩
      "yahoo_finance" 7).1 = true := by
  refine ⟨claim9_fail_open.1 () "yahoo_finance" 7, ?_⟩
  exact claim9_fail_open.2 _ "yahoo_finance"
    { last_api_call := some .malformed, last_successful_update := none,
      daily_calls := 5, max_daily_calls := 1 } 7 (by simp [alookup]) rfl

/-! Lemmas about the most-recent-row query. -/

/-- The scan yields `none` exactly when it started from `none` and no row
matches the ticker. -/
theorem pickLatestGo_eq_none {α : Type} (tick : α → String) (coll : α → Nat)
    (t : String) (rows : List α) :
    ∀ acc, pickLatestGo tick coll t acc rows = none ↔
      (acc = none ∧ ∀ r ∈ rows, tick r ≠ t) := by
  induction rows with
  | nil => intro acc; simp [pickLatestGo]
  | cons x rest ih =>
    intro acc
    simp only [pickLatestGo]
    rw [ih]
    by_cases hx : tick x = t
    · have hsome : ∃ b, (if tick x = t then
          (match acc with
           | none => some x
           | some a => if coll a ≤ coll x then some x else some a)
          else acc) = some b := by
        rw [if_pos hx]
        cases acc with
        | none => exact ⟨x, rfl⟩
        | some a =>
          by_cases hc : coll a ≤ coll x
          · exact ⟨x, by
              show (if coll a ≤ coll x then some x else some a) = some x
              rw [if_pos hc]⟩
          · exact ⟨a, by
              show (if coll a ≤ coll x then some x else some a) = some a
              rw [if_neg hc]⟩
      obtain ⟨b, hb⟩ := hsome
      rw [hb]
      constructor
      · rintro ⟨h1, _⟩; exact Option.noConfusion h1
      · rintro ⟨_, h2⟩; exact absurd hx (h2 x (List.mem_cons_self x rest))
    · rw [if_neg hx]
      constructor
      · rintro ⟨h1, h2⟩
        refine ⟨h1, fun r hr => ?_⟩
        rcases List.mem_cons.mp hr with he | hm
        · rw [he]; exact hx
        · exact h2 r hm
      · rintro ⟨h1, h2⟩
        exact ⟨h1, fun r hr => h2 r (List.mem_cons_of_mem x hr)⟩

/-- Soundness of the scan: a produced row matches the ticker, comes from the
accumulator or the list, and dominates the accumulator and every matching row
of the list in `coll`. -/
theorem pickLatestGo_spec {α : Type} (tick : α → String) (coll : α → Nat)
    (t : String) (rows : List α) :
    ∀ acc r, (∀ a, acc = some a → tick a = t) →
      pickLatestGo tick coll t acc rows = some r →
      tick r = t ∧ (acc = some r ∨ r ∈ rows) ∧
      (∀ a, acc = some a → coll a ≤ coll r) ∧
      (∀ x ∈ rows, tick x = t → coll x ≤ coll r) := by
  induction rows with
  | nil =>
    intro acc r hacc h
    simp only [pickLatestGo] at h
    refine ⟨hacc r h, Or.inl h, ?_, fun x hx => absurd hx (List.not_mem_nil x)⟩
    intro a ha
    rw [h] at ha
    have h5 := Option.some.inj ha
    rw [← h5]
  | cons y rest ih =>
    intro acc r hacc h
    simp only [pickLatestGo] at h
    by_cases hy : tick y = t
    · rw [if_pos hy] at h
      cases acc with
      | none =>
        obtain ⟨h1, h2, h3, h4⟩ := ih (some y) r
          (fun b hb => by injection hb with h5; rw [← h5]; exact hy) h
        refine ⟨h1, Or.inr ?_, ?_, ?_⟩
        · rcases h2 with he | hm
          · have h5 := Option.some.inj he
            rw [← h5]; exact List.mem_cons_self y rest
          · exact List.mem_cons_of_mem y hm
        · intro a ha; exact Option.noConfusion ha
        · intro x hx htx
          rcases List.mem_cons.mp hx with he | hm
          · rw [he]; exact h3 y rfl
          · exact h4 x hm htx
      | some a =>
        have hm : pickLatestGo tick coll t
            (if coll a ≤ coll y then some y else some a) rest = some r := h
        by_cases hc : coll a ≤ coll y
        · rw [if_pos hc] at hm
          obtain ⟨h1, h2, h3, h4⟩ := ih (some y) r
            (fun b hb => by injection hb with h5; rw [← h5]; exact hy) hm
          refine ⟨h1, Or.inr ?_, ?_, ?_⟩
          · rcases h2 with he | hm
            · have h5 := Option.some.inj he
              rw [← h5]; exact List.mem_cons_self y rest
            · exact List.mem_cons_of_mem y hm
          · intro b hb
            have h5 := Option.some.inj hb
            rw [← h5]
            exact le_trans hc (h3 y rfl)
          · intro x hx htx
            rcases List.mem_cons.mp hx with he | hm
            · rw [he]; exact h3 y rfl
            · exact h4 x hm htx
        · rw [if_neg hc] at hm
          obtain ⟨h1, h2, h3, h4⟩ := ih (some a) r
            (fun b hb => by injection hb with h5; rw [← h5]; exact hacc a rfl) hm
          refine ⟨h1, ?_, ?_, ?_⟩
          · rcases h2 with he | hm
            · exact Or.inl he
            · exact Or.inr (List.mem_cons_of_mem y hm)
          · intro b hb
            have h5 := Option.some.inj hb
            rw [← h5]
            exact h3 a rfl
          · intro x hx htx
            rcases List.mem_cons.mp hx with he | hm
            · rw [he]
              exact le_trans (le_of_lt (lt_of_not_le hc)) (h3 a rfl)
            · exact h4 x hm htx
    · rw [if_neg hy] at h
      obtain ⟨h1, h2, h3, h4⟩ := ih acc r hacc h
      refine ⟨h1, ?_, h3, ?_⟩
      · rcases h2 with he | hm
        · exact Or.inl he
        · exact Or.inr (List.mem_cons_of_mem y hm)
      · intro x hx htx
        rcases List.mem_cons.mp hx with he | hm
        · rw [he] at htx; exact absurd htx hy
        · exact h4 x hm htx

/-- A table with no row for the ticker yields no latest row. -/
theorem pickLatest_eq_none {α : Type} (tick : α → String) (coll : α → Nat)
    (rows : List α) (t : String) (h : ∀ r ∈ rows, tick r ≠ t) :
    pickLatest tick coll rows t = none := by
  rw [pickLatest, pickLatestGo_eq_none]
  exact ⟨rfl, h⟩

/-- Soundness of `pickLatest`: the produced row is a matching row of the table
with maximal `collected_at`. -/
theorem pickLatest_spec {α : Type} (tick : α → String) (coll : α → Nat)
    (rows : List α) (t : String) (r : α)
    (h : pickLatest tick coll rows t = some r) :
    r ∈ rows ∧ tick r = t ∧ ∀ x ∈ rows, tick x = t → coll x ≤ coll r := by
  obtain ⟨h1, h2, _, h4⟩ := pickLatestGo_spec tick coll t rows none r
    (fun a ha => Option.noConfusion ha) h
  cases h2 with
  | inl he => exact Option.noConfusion he
  | inr hm => exact ⟨hm, h1, h4⟩

/-- The scan distributes over append. -/
theorem pickLatestGo_append {α : Type} (tick : α → String) (coll : α → Nat)
    (t : String) (l1 l2 : List α) :
    ∀ acc, pickLatestGo tick coll t acc (l1 ++ l2)
      = pickLatestGo tick coll t (pickLatestGo tick coll t acc l1) l2 := by
  induction l1 with
  | nil => intro acc; simp [pickLatestGo]
  | cons x rest ih => intro acc; simp only [List.cons_append, pickLatestGo]; exact ih _

/-- A matching row appended at the end of the table whose `collected_at`
dominates every matching row is the query result (sqlite ties resolve to it
because the scan prefers the later row on equal timestamps). -/
theorem pickLatest_append_last {α : Type} (tick : α → String) (coll : α → Nat)
    (rows : List α) (t : String) (r : α) (ht : tick r = t)
    (hmax : ∀ x ∈ rows, tick x = t → coll x ≤ coll r) :
    pickLatest tick coll (rows ++ [r]) t = some r := by
  rw [pickLatest, pickLatestGo_append]
  cases hpl : pickLatestGo tick coll t none rows with
  | none => simp [pickLatestGo, ht]
  | some a =>
    obtain ⟨ha1, ha2, ha3⟩ := pickLatest_spec tick coll rows t a hpl
    simp [pickLatestGo, ht, if_pos (hmax a ha1 ha2)]

/-! Claim C3 — freshness window of the cache read path. -/

/-- C3. `get_from_cache` with no source reads the most recent `combined_cache`
record of the ticker: it returns not-found when no record exists; when the
most recent record exists it is returned exactly when its age
`now - collected_at` is at most `max_age_hours` hours, and not-found when the
age exceeds that (the produced row is proved to be a matching row dominating
all others in `collected_at`). -/
theorem claim3_freshness_boundary (db : CacheDB) (ticker : String) (H now : Nat) :
    ((∀ r ∈ db.combined_cache, r.ticker ≠ ticker) →
      get_from_cache_ok db ticker none H now = none)
    ∧ (∀ r, pickLatest CombinedRow.ticker CombinedRow.collected_at
        db.combined_cache ticker = some r →
        (r ∈ db.combined_cache ∧ r.ticker = ticker ∧
          ∀ x ∈ db.combined_cache, x.ticker = ticker →
            x.collected_at ≤ r.collected_at)
        ∧ ((now : ℤ) - (r.collected_at : ℤ) ≤ (H : ℤ) * 3600 →
            get_from_cache_ok db ticker none H now = some r.data)
        ∧ ((H : ℤ) * 3600 < (now : ℤ) - (r.collected_at : ℤ) →
            get_from_cache_ok db ticker none H now = none)) := by
  constructor
  · intro h
    rw [get_from_cache_ok]
    simp [pickLatest_eq_none CombinedRow.ticker CombinedRow.collected_at
      db.combined_cache ticker h]
  · intro r hpick
    have hcompute : get_from_cache_ok db ticker none H now
        = if (now : ℤ) - (r.collected_at : ℤ) ≤ (H : ℤ) * 3600
          then some r.data else none := by
      unfold get_from_cache_ok
      rw [hpick]
      rfl
    refine ⟨pickLatest_spec _ _ _ _ r hpick, ?_, ?_⟩
    · intro hfresh
      rw [hcompute, if_pos hfresh]
    · intro hstale
      rw [hcompute, if_neg (not_le.mpr hstale)]

/-- Witness for C3: one record collected at instant 0; a read at age
23h59m (86340 s) returns it, a read at age 24h01m (86460 s) does not, and a
read for an unknown ticker returns not-found. -/
theorem claim3_freshness_boundary_witness :
    get_from_cache_ok ⟨[], [], [⟨"AAPL", [sfld "ticker" "AAPL"], "yahoo_finance", 0, 0⟩]⟩
      "AAPL" none 24 86340 = some [sfld "ticker" "AAPL"]
    ∧ get_from_cache_ok ⟨[], [], [⟨"AAPL", [sfld "ticker" "AAPL"], "yahoo_finance", 0, 0⟩]⟩
      "AAPL" none 24 86460 = none
    ∧ get_from_cache_ok ⟨[], [], [⟨"AAPL", [sfld "ticker" "AAPL"], "yahoo_finance", 0, 0⟩]⟩
      "MSFT" none 24 86340 = none := by
  refine ⟨?_, ?_, ?_⟩
  · exact ((claim3_freshness_boundary
      ⟨[], [], [⟨"AAPL", [sfld "ticker" "AAPL"], "yahoo_finance", 0, 0⟩]⟩ "AAPL" 24 86340).2
      ⟨"AAPL", [sfld "ticker" "AAPL"], "yahoo_finance", 0, 0⟩ (by rfl)).2.1 (by decide)
  · exact ((claim3_freshness_boundary
      ⟨[], [], [⟨"AAPL", [sfld "ticker" "AAPL"], "yahoo_finance", 0, 0⟩]⟩ "AAPL" 24 86460).2
      ⟨"AAPL", [sfld "ticker" "AAPL"], "yahoo_finance", 0, 0⟩ (by rfl)).2.2 (by decide)
  · exact (claim3_freshness_boundary
      ⟨[], [], [⟨"AAPL", [sfld "ticker" "AAPL"], "yahoo_finance", 0, 0⟩]⟩ "MSFT" 24 86340).1
      (by intro r hr; simp at hr; rw [hr]; decide)

/-! Lemmas about upsert-on-conflict. -/

/-- Filtering by a predicate after keeping only its complement yields
nothing. -/
theorem filter_not_filter {α : Type} (l : List α) (p : α → Bool) :
    (l.filter (fun a => !p a)).filter p = [] := by
  induction l with
  | nil => rfl
  | cons x xs ih =>
    cases hx : p x with
    | false => simp [List.filter_cons, hx, ih]
    | true => simp [List.filter_cons, hx, ih]

/-- After deleting every row in key conflict and appending the new row,
filtering by the key finds exactly the new row — `INSERT OR REPLACE`
uniqueness. -/
theorem filter_upsert_key {α : Type} (rows : List α) (k : α → Bool) (r : α)
    (hk : k r = true) :
    ((rows.filter (fun q => !k q)) ++ [r]).filter k = [r] := by
  rw [List.filter_append, filter_not_filter rows k]
  simp [List.filter_cons, hk]

/-- Reading the combined table after a save: the save always upserts the
record there, for any source name. -/
theorem save_to_cache_ok_combined (db : CacheDB) (s t : String) (d : Row) (n : Nat) :
    (save_to_cache_ok db s t d n).combined_cache
      = upsertCombinedRow db.combined_cache ⟨t, d, s, n, dateOf n⟩ := by
  rw [save_to_cache_ok]
  by_cases h1 : s = "yahoo_finance"
  · simp [h1]
  · by_cases h2 : s = "alpha_vantage" <;> simp [h1, h2]

/-- Reading the Yahoo Finance table after a Yahoo Finance save. -/
theorem save_to_cache_ok_yahoo (db : CacheDB) (t : String) (d : Row) (n : Nat) :
    (save_to_cache_ok db "yahoo_finance" t d n).yahoo_finance_cache
      = upsertSourceRow db.yahoo_finance_cache ⟨t, d, n, dateOf n⟩ := by
  simp [save_to_cache_ok]

/-- Reading the Alpha Vantage table after an Alpha Vantage save. -/
theorem save_to_cache_ok_alpha (db : CacheDB) (t : String) (d : Row) (n : Nat) :
    (save_to_cache_ok db "alpha_vantage" t d n).alpha_vantage_cache
      = upsertSourceRow db.alpha_vantage_cache ⟨t, d, n, dateOf n⟩ := by
  simp [save_to_cache_ok]

/-- A save leaves the other tables' contents for other keys untouched; in
particular it does not clear the per-source tables. Stated for the Yahoo
table under a non-Yahoo source. -/
theorem save_to_cache_ok_yahoo_other (db : CacheDB) (s t : String) (d : Row)
    (n : Nat) (h : s ≠ "yahoo_finance") :
    (save_to_cache_ok db s t d n).yahoo_finance_cache = db.yahoo_finance_cache := by
  rw [save_to_cache_ok]
  by_cases h2 : s = "alpha_vantage" <;> simp [h, h2]

/-! Claim C5 — cache upsert semantics. -/

/-- C5 (amended). Writing two records under the same (ticker, source, date)
key on the same calendar day leaves exactly one record retrievable for that
key, equal to the second write, in the per-source table; the same writes
also upsert into the cross-source `combined_cache` — keyed by
(ticker, cache_date), not by ticker alone — where within the day the last
writer wins across sources too, and the read path returns the second write. -/
theorem claim5_cache_upsert (db : CacheDB) (s1 s2 t : String) (d1 d2 : Row)
    (n1 n2 H now : Nat) (hday : dateOf n1 = dateOf n2) :
    (s1 = "yahoo_finance" → s2 = "yahoo_finance" →
      (save_to_cache_ok (save_to_cache_ok db s1 t d1 n1) s2 t d2 n2).yahoo_finance_cache.filter
          (fun q => q.ticker == t && q.cache_date == dateOf n1)
        = [⟨t, d2, n2, dateOf n2⟩])
    ∧ (s1 = "alpha_vantage" → s2 = "alpha_vantage" →
      (save_to_cache_ok (save_to_cache_ok db s1 t d1 n1) s2 t d2 n2).alpha_vantage_cache.filter
          (fun q => q.ticker == t && q.cache_date == dateOf n1)
        = [⟨t, d2, n2, dateOf n2⟩])
    ∧ ((save_to_cache_ok (save_to_cache_ok db s1 t d1 n1) s2 t d2 n2).combined_cache.filter
          (fun q => q.ticker == t && q.cache_date == dateOf n1)
        = [⟨t, d2, s2, n2, dateOf n2⟩])
    ∧ ((∀ x ∈ db.combined_cache, x.collected_at ≤ n2) → n1 ≤ n2 →
        (now : ℤ) - (n2 : ℤ) ≤ (H : ℤ) * 3600 →
        get_from_cache_ok (save_to_cache_ok (save_to_cache_ok db s1 t d1 n1) s2 t d2 n2)
          t none H now = some d2) := by
  refine ⟨?_, ?_, ?_, ?_⟩
  · intro h1 h2
    subst h1; subst h2
    rw [save_to_cache_ok_yahoo, save_to_cache_ok_yahoo, hday]
    exact filter_upsert_key _ _ _ (by simp)
  · intro h1 h2
    subst h1; subst h2
    have ha : ∀ dbx, (save_to_cache_ok dbx "alpha_vantage" t d2 n2).alpha_vantage_cache
        = upsertSourceRow dbx.alpha_vantage_cache ⟨t, d2, n2, dateOf n2⟩ :=
      fun dbx => save_to_cache_ok_alpha dbx t d2 n2
    rw [ha, save_to_cache_ok_alpha, hday]
    exact filter_upsert_key _ _ _ (by simp)
  · rw [save_to_cache_ok_combined, save_to_cache_ok_combined, hday]
    exact filter_upsert_key _ _ _ (by simp)
  · intro hcoll h12 hage
    have hcomb : (save_to_cache_ok (save_to_cache_ok db s1 t d1 n1) s2 t d2 n2).combined_cache
        = upsertCombinedRow (upsertCombinedRow db.combined_cache ⟨t, d1, s1, n1, dateOf n1⟩)
            ⟨t, d2, s2, n2, dateOf n2⟩ := by
      rw [save_to_cache_ok_combined, save_to_cache_ok_combined]
    have hpick : pickLatest CombinedRow.ticker CombinedRow.collected_at
        (save_to_cache_ok (save_to_cache_ok db s1 t d1 n1) s2 t d2 n2).combined_cache t
        = some ⟨t, d2, s2, n2, dateOf n2⟩ := by
      rw [hcomb, upsertCombinedRow]
      apply pickLatest_append_last
      · rfl
      · intro x hx _
        have hx2 := (List.mem_filter.mp hx).1
        rcases List.mem_append.mp hx2 with hmem | hone
        · exact hcoll x (List.mem_filter.mp hmem).1
        · rcases List.mem_singleton.mp hone with rfl
          exact h12
    unfold get_from_cache_ok
    rw [hpick]
    show (if (now : ℤ) - ((n2 : Nat) : ℤ) ≤ (H : ℤ) * 3600 then some d2 else none) = some d2
    rw [if_pos hage]

/-- Witness for C5: two same-day Yahoo Finance writes for AAPL into an empty
store; the per-source and combined tables hold exactly the second record for
the day-0 key, and a fresh read returns the second record. -/
theorem claim5_cache_upsert_witness :
    ((save_to_cache_ok (save_to_cache_ok ⟨[], [], []⟩ "yahoo_finance" "AAPL"
        [nfld "current_price" 1] 100) "yahoo_finance" "AAPL"
        [nfld "current_price" 2] 200).yahoo_finance_cache.filter
      (fun q => q.ticker == "AAPL" && q.cache_date == dateOf 100)
      = [⟨"AAPL", [nfld "current_price" 2], 200, dateOf 200⟩])
    ∧ get_from_cache_ok (save_to_cache_ok (save_to_cache_ok ⟨[], [], []⟩ "yahoo_finance" "AAPL"
        [nfld "current_price" 1] 100) "yahoo_finance" "AAPL"
        [nfld "current_price" 2] 200) "AAPL" none 24 300
      = some [nfld "current_price" 2] := by
  have h := claim5_cache_upsert ⟨[], [], []⟩ "yahoo_finance" "yahoo_finance" "AAPL"
    [nfld "current_price" 1] [nfld "current_price" 2] 100 200 24 300 (by decide)
  exact ⟨h.1 rfl rfl,
    h.2.2.2 (fun x hx => absurd hx (List.not_mem_nil x)) (by norm_num) (by decide)⟩

/-- Counterexample for C5 as stated: the combined "latest" table is NOT keyed
by ticker only — two writes for the same ticker on different calendar days
leave two retrievable rows for that ticker. -/
theorem claim5_ticker_only_counterexample :
    ((save_to_cache_ok (save_to_cache_ok ⟨[], [], []⟩ "yahoo_finance" "AAPL"
        [nfld "current_price" 1] 0) "alpha_vantage" "AAPL"
        [nfld "current_price" 2] 86400).combined_cache.filter
      (fun q => q.ticker == "AAPL")).length = 2 := by decide

/-! Claim C7 — storage failures degrade, never propagate. -/

/-- C7. Any storage-layer failure inside a cache-store operation is caught by
the surrounding handler: a failing read (`get_from_cache`,
`get_all_cached_tickers`) returns the not-found result (`none` / the empty
list), and a failing write or maintenance call (`save_to_cache`,
`cleanup_old_cache`) returns normally with the state unchanged; nothing
propagates to the caller. -/
theorem claim7_storage_failure_degrades (db : CacheDB) (md : Metadata)
    (ticker source : String) (src : Option String) (d : Row)
    (H now maxd : Nat) :
    get_from_cache db ticker src H now true = none
    ∧ save_to_cache db source ticker d now true = db
    ∧ get_all_cached_tickers db src true = []
    ∧ (cleanup_old_cache db md maxd now true).1 = db
    ∧ (cleanup_old_cache db md maxd now true).2.1 = md
    ∧ (cleanup_old_cache db md maxd now true).2.2 = none :=
  ⟨rfl, rfl, rfl, rfl, rfl, rfl⟩

/-! Claim C8 — age-based cleanup. -/

/-- C8 (amended). `cleanup_old_cache(max_age_days)` deletes exactly the
records whose `cache_date` is before the calendar date of
`now - max_age_days`, keeps every newer record, and — contrary to the claim
as stated — returns no value (Python `None`); the deleted count is computed
only for logging. -/
theorem claim8_cleanup_spec (db : CacheDB) (md : Metadata) (maxd now : Nat) :
    (∀ r : CacheRow, r ∈ (cleanup_old_cache db md maxd now false).1.yahoo_finance_cache ↔
      (r ∈ db.yahoo_finance_cache ∧ ¬ r.cache_date < dateOf (now - maxd * 86400)))
    ∧ (∀ r : CacheRow, r ∈ (cleanup_old_cache db md maxd now false).1.alpha_vantage_cache ↔
      (r ∈ db.alpha_vantage_cache ∧ ¬ r.cache_date < dateOf (now - maxd * 86400)))
    ∧ (∀ r : CombinedRow, r ∈ (cleanup_old_cache db md maxd now false).1.combined_cache ↔
      (r ∈ db.combined_cache ∧ ¬ r.cache_date < dateOf (now - maxd * 86400)))
    ∧ (cleanup_old_cache db md maxd now false).2.2 = none := by
  refine ⟨?_, ?_, ?_, rfl⟩ <;>
    (intro r; simp [cleanup_old_cache, List.mem_filter, decide_eq_true_eq, not_lt])

/-- Counterexample for C8 as stated: a cleanup that deletes one 30-day-old
record returns `None`, not the count 1. -/
theorem claim8_cleanup_counterexample :
    (cleanup_old_cache ⟨[], [], [⟨"AAPL", [sfld "ticker" "AAPL"], "yahoo_finance", 0, 0⟩]⟩
       ⟨[], none, none⟩ 7 2592000 false).1.combined_cache = []
    ∧ (cleanup_old_cache ⟨[], [], [⟨"AAPL", [sfld "ticker" "AAPL"], "yahoo_finance", 0, 0⟩]⟩
       ⟨[], none, none⟩ 7 2592000 false).2.2 = none
    ∧ (none : Option Nat) ≠ some 1 := by
  refine ⟨by decide, rfl, by decide⟩

/-! Row/DataFrame assignment lemmas. -/

/-- Reading a column after a row-level set. -/
theorem rowGet_rowSet (r : Row) (c c' : String) (v : Option Val) :
    rowGet (rowSet r c v) c' = if c' = c then some v else rowGet r c' :=
  alookup_aset r c c' v

/-- Column membership after a row-level set. -/
theorem rowHas_rowSet (r : Row) (c c' : String) (v : Option Val) :
    rowHas (rowSet r c v) c' = if c' = c then true else rowHas r c' := by
  unfold rowHas
  rw [rowGet_rowSet]
  by_cases h : c' = c <;> simp [h]

/-- The assigned column of a frame after a column assignment. -/
theorem dfGetCol_dfAssign_self (df : DF) (c : String) (f : Row → Option Val) :
    dfGetCol (dfAssign df c f) c = df.rows.map (fun r => some (f r)) := by
  unfold dfGetCol dfAssign
  rw [List.map_map]
  apply List.map_congr_left
  intro r _
  simp [Function.comp, rowGet_rowSet]

/-- Any other column of a frame after a column assignment. -/
theorem dfGetCol_dfAssign_ne (df : DF) (c : String) (f : Row → Option Val)
    (c' : String) (h : c' ≠ c) :
    dfGetCol (dfAssign df c f) c' = dfGetCol df c' := by
  unfold dfGetCol dfAssign
  rw [List.map_map]
  apply List.map_congr_left
  intro r _
  simp [Function.comp, rowGet_rowSet, h]

/-- Column membership is unchanged for other columns by an assignment. -/
theorem dfHasCol_dfAssign_ne (df : DF) (c : String) (f : Row → Option Val)
    (c' : String) (h : c' ≠ c) :
    dfHasCol (dfAssign df c f) c' = dfHasCol df c' := by
  cases hrows : df.rows with
  | nil => simp [dfHasCol, dfAssign, hrows]
  | cons r rs =>
    simp only [dfHasCol, dfAssign, hrows, List.map_cons]
    rw [rowHas_rowSet, if_neg h]

/-- Unfolding `dfHasCol` on a frame with a known first row. -/
theorem dfHasCol_of_rows_cons (df : DF) (c : String) (r : Row) (rs : List Row)
    (h : df.rows = r :: rs) : dfHasCol df c = rowHas r c := by
  unfold dfHasCol
  rw [h]

/-- Unfolding `dfHasCol` on a frame with no rows. -/
theorem dfHasCol_of_rows_nil (df : DF) (c : String) (h : df.rows = []) :
    dfHasCol df c = false := by
  unfold dfHasCol
  rw [h]

/-- Column membership is monotone under assignment. -/
theorem dfHasCol_dfAssign_mono (df : DF) (c : String) (f : Row → Option Val)
    (c' : String) (h : dfHasCol df c' = true) :
    dfHasCol (dfAssign df c f) c' = true := by
  cases hrows : df.rows with
  | nil => rw [dfHasCol_of_rows_nil df c' hrows] at h; exact Bool.noConfusion h
  | cons r rs =>
    rw [dfHasCol_of_rows_cons df c' r rs hrows] at h
    rw [dfHasCol_of_rows_cons (dfAssign df c f) c' (rowSet r c (f r))
      (rs.map (fun r => rowSet r c (f r))) (by simp [dfAssign, hrows])]
    rw [rowHas_rowSet]
    by_cases hc : c' = c <;> simp [hc, h]

/-- The assigned column is present afterwards (on a non-empty frame). -/
theorem dfHasCol_dfAssign_self (df : DF) (c : String) (f : Row → Option Val)
    (h : df.rows ≠ []) :
    dfHasCol (dfAssign df c f) c = true := by
  cases hrows : df.rows with
  | nil => exact absurd hrows h
  | cons r rs =>
    simp only [dfHasCol, dfAssign, hrows, List.map_cons]
    rw [rowHas_rowSet, if_pos rfl]

/-! StageMaps combinators: every enrichment stage acts row-wise and touches
only its target columns. -/

/-- A single column assignment (the per-row value may depend on the frame,
e.g. on its column count). -/
theorem stageMaps_assign (c : String) (F : DF → Row → Option Val) :
    StageMaps (fun df => dfAssign df c (F df)) [c] := by
  intro df
  refine ⟨fun r => rowSet r c (F df r), rfl, ?_⟩
  intro r c' hc'
  rw [rowGet_rowSet, if_neg (by simpa using hc')]

/-- Composition of stages. -/
theorem stageMaps_comp {F G : DF → DF} {T1 T2 : List String}
    (hF : StageMaps F T1) (hG : StageMaps G T2) :
    StageMaps (fun df => G (F df)) (T1 ++ T2) := by
  intro df
  obtain ⟨f1, h1, p1⟩ := hF df
  obtain ⟨f2, h2, p2⟩ := hG (F df)
  refine ⟨fun r => f2 (f1 r), ?_, ?_⟩
  · rw [h2, h1, List.map_map]; rfl
  · intro r c hc
    rw [p2 _ _ (fun hm => hc (List.mem_append.mpr (Or.inr hm))),
        p1 _ _ (fun hm => hc (List.mem_append.mpr (Or.inl hm)))]

/-- A stage guarded by a frame-level condition (else branch: no-op). -/
theorem stageMaps_ite (b : DF → Bool) {F : DF → DF} {T : List String}
    (hF : StageMaps F T) :
    StageMaps (fun df => if b df then F df else df) T := by
  intro df
  by_cases h : b df = true
  · obtain ⟨f1, h1, p1⟩ := hF df
    refine ⟨f1, ?_, p1⟩
    show (if b df then F df else df).rows = List.map f1 df.rows
    rw [if_pos h]
    exact h1
  · refine ⟨id, ?_, fun r c hc => rfl⟩
    show (if b df then F df else df).rows = List.map id df.rows
    rw [if_neg h]
    simp

/-- A stage guarded by a frame-level condition (then branch: no-op). -/
theorem stageMaps_ite_skip (b : DF → Bool) {F : DF → DF} {T : List String}
    (hF : StageMaps F T) :
    StageMaps (fun df => if b df then df else F df) T := by
  intro df
  by_cases h : b df = true
  · refine ⟨id, ?_, fun r c hc => rfl⟩
    show (if b df then df else F df).rows = List.map id df.rows
    rw [if_pos h]
    simp
  · obtain ⟨f1, h1, p1⟩ := hF df
    refine ⟨f1, ?_, p1⟩
    show (if b df then df else F df).rows = List.map f1 df.rows
    rw [if_neg h]
    exact h1

/-- Enlarging the target set. -/
theorem stageMaps_mono {F : DF → DF} {T1 T2 : List String}
    (hsub : ∀ c ∈ T1, c ∈ T2) (hF : StageMaps F T1) : StageMaps F T2 := by
  intro df
  obtain ⟨f1, h1, p1⟩ := hF df
  exact ⟨f1, h1, fun r c hc => p1 r c (fun hm => hc (hsub c hm))⟩

/-- The volume-ratio group only writes `volume_ratio`. -/
theorem stageMaps_calcVolumeGroup : StageMaps calcVolumeGroup ["volume_ratio"] := by
  have h := stageMaps_comp
    (stageMaps_assign "volume_ratio" (fun _ r =>
      numDiv (joinGet r "volume") (replaceZero (joinGet r "avg_volume_30d"))))
    (stageMaps_assign "volume_ratio" (fun _ r => fillna 1 (joinGet r "volume_ratio")))
  have h2 := @stageMaps_mono _ _ ["volume_ratio"]
    (by intro c hc; simpa using (by simpa using hc : c = "volume_ratio" ∨ c = "volume_ratio").elim id id) h
  exact stageMaps_ite (fun df => dfHasCol df "volume" && dfHasCol df "avg_volume_30d") h2

/-- The momentum group only writes `price_momentum`. -/
theorem stageMaps_calcMomentumGroup : StageMaps calcMomentumGroup ["price_momentum"] :=
  stageMaps_ite (fun df => dfHasCol df "current_price" && dfHasCol df "prev_close")
    (stageMaps_assign "price_momentum" (fun _ r =>
      fillna 0 (numMul (numDiv (numSub (joinGet r "current_price") (joinGet r "prev_close"))
        (joinGet r "prev_close")) 100)))

/-- The market-cap group only writes `market_cap_category`. -/
theorem stageMaps_calcMarketCapGroup :
    StageMaps calcMarketCapGroup ["market_cap_category"] :=
  stageMaps_ite (fun df => dfHasCol df "market_cap")
    (stageMaps_assign "market_cap_category" (fun _ r =>
      marketCapCategory (joinGet r "market_cap")))

/-- The PEG group only writes `peg_ratio_calculated`. -/
theorem stageMaps_calcPegGroup : StageMaps calcPegGroup ["peg_ratio_calculated"] := by
  have h := stageMaps_comp
    (stageMaps_assign "peg_ratio_calculated" (fun _ r =>
      numDiv (joinGet r "pe_ratio") (replaceZero (numMul (joinGet r "eps_growth") 100))))
    (stageMaps_assign "peg_ratio_calculated" (fun _ r => fillna 0 (joinGet r "peg_ratio_calculated")))
  have h2 := @stageMaps_mono _ _ ["peg_ratio_calculated"]
    (by intro c hc; simpa using (by simpa using hc : c = "peg_ratio_calculated" ∨ c = "peg_ratio_calculated").elim id id) h
  exact stageMaps_ite (fun df => dfHasCol df "pe_ratio" && dfHasCol df "eps_growth") h2

/-- The calculated-metrics stage writes only its four derived columns. -/
theorem stageMaps_add_calculated_metrics :
    StageMaps add_calculated_metrics calc_targets := by
  have h := stageMaps_comp (stageMaps_comp (stageMaps_comp
    stageMaps_calcVolumeGroup stageMaps_calcMomentumGroup)
    stageMaps_calcMarketCapGroup) stageMaps_calcPegGroup
  exact stageMaps_mono (by intro c hc; simp [calc_targets]; simp at hc; tauto) h

/-- The first three calc groups write only their three columns. -/
theorem stageMaps_calc3 :
    StageMaps (fun df => calcMarketCapGroup (calcMomentumGroup (calcVolumeGroup df)))
      ["volume_ratio", "price_momentum", "market_cap_category"] := by
  have h := stageMaps_comp (stageMaps_comp
    stageMaps_calcVolumeGroup stageMaps_calcMomentumGroup) stageMaps_calcMarketCapGroup
  exact stageMaps_mono (by intro c hc; simp; simp at hc; tauto) h

/-- The first two calc groups write only their two columns. -/
theorem stageMaps_calc2 :
    StageMaps (fun df => calcMomentumGroup (calcVolumeGroup df))
      ["volume_ratio", "price_momentum"] := by
  have h := stageMaps_comp stageMaps_calcVolumeGroup stageMaps_calcMomentumGroup
  exact stageMaps_mono (by intro c hc; simp; simp at hc; tauto) h

/-- The required-fields pass writes only the listed fields. -/
theorem stageMaps_ensureFieldsGo (L : List (String × Qv)) :
    StageMaps (ensureFieldsGo L) (L.map Prod.fst) := by
  induction L with
  | nil =>
    intro df
    exact ⟨id, by simp [ensureFieldsGo], fun r c hc => rfl⟩
  | cons p L ih =>
    have hstep : StageMaps
        (fun df => if dfHasCol df p.1 then df else dfAssign df p.1 (fun _ => some (.num p.2)))
        [p.1] :=
      stageMaps_ite_skip (fun df => dfHasCol df p.1) (stageMaps_assign p.1 (fun _ _ => some (.num p.2)))
    exact stageMaps_comp hstep ih

/-- `_ensure_required_fields` writes only required fields. -/
theorem stageMaps_ensure_required_fields :
    StageMaps ensure_required_fields required_field_names :=
  stageMaps_ensureFieldsGo required_field_defaults

/-- The data-quality stage writes only its four metadata columns. -/
theorem stageMaps_add_data_quality_indicators :
    StageMaps add_data_quality_indicators quality_targets := by
  have h := stageMaps_comp (stageMaps_comp (stageMaps_comp
    (stageMaps_assign "data_completeness" (fun _ r => some (.num (countSome r))))
    (stageMaps_assign "data_completeness_pct" (fun df r =>
      numMul (numDiv (joinGet r "data_completeness") (some (.num (dfNumCols df)))) 100)))
    (stageMaps_assign "data_age_hours" (fun _ _ => some (.num 0))))
    (stageMaps_ite_skip (fun df => dfHasCol df "data_source")
      (stageMaps_assign "data_source" (fun _ _ => some (.str "Multi-Source System"))))
  exact stageMaps_mono (by intro c hc; simp [quality_targets]; simp at hc; tauto) h

/-- Whole-pipeline target set. -/
theorem stageMaps_enrich_stock_data :
    StageMaps enrich_stock_data (calc_targets ++ (required_field_names ++ quality_targets)) := by
  have h := stageMaps_comp stageMaps_add_calculated_metrics
    (stageMaps_comp stageMaps_ensure_required_fields stageMaps_add_data_quality_indicators)
  intro df
  obtain ⟨f1, h1, p1⟩ := h df
  exact ⟨f1, h1, p1⟩

/-- Columns outside the target set are untouched by a stage. -/
theorem dfGetCol_of_stageMaps {F : DF → DF} {T : List String}
    (h : StageMaps F T) (df : DF) (c : String) (hc : c ∉ T) :
    dfGetCol (F df) c = dfGetCol df c := by
  obtain ⟨f1, h1, p1⟩ := h df
  unfold dfGetCol
  rw [h1, List.map_map]
  apply List.map_congr_left
  intro r _
  exact p1 r c hc

/-- Column membership outside the target set is untouched by a stage. -/
theorem dfHasCol_of_stageMaps {F : DF → DF} {T : List String}
    (h : StageMaps F T) (df : DF) (c : String) (hc : c ∉ T) :
    dfHasCol (F df) c = dfHasCol df c := by
  obtain ⟨f1, h1, p1⟩ := h df
  cases hrows : df.rows with
  | nil => simp [dfHasCol, h1, hrows]
  | cons r rs =>
    simp only [dfHasCol, h1, hrows, List.map_cons]
    unfold rowHas
    rw [p1 r c hc]

/-- A stage preserves the number of rows. -/
theorem rows_length_of_stageMaps {F : DF → DF} {T : List String}
    (h : StageMaps F T) (df : DF) : (F df).rows.length = df.rows.length := by
  obtain ⟨f1, h1, _⟩ := h df
  rw [h1, List.length_map]

/-- A stage maps empty frames to empty frames. -/
theorem rows_nil_of_stageMaps {F : DF → DF} {T : List String}
    (h : StageMaps F T) (df : DF) (hrows : df.rows = []) : (F df).rows = [] := by
  obtain ⟨f1, h1, _⟩ := h df
  rw [h1, hrows]
  rfl

/-- Mapping a constant function is replication. -/
theorem map_const_replicate {α β : Type} (l : List α) (b : β) :
    l.map (fun _ => b) = List.replicate l.length b := by
  induction l with
  | nil => rfl
  | cons x xs ih => simp [List.replicate, ih]

/-- Value of `volume_ratio` when the volume group runs. -/
theorem calcVolumeGroup_pos (df : DF)
    (h : (dfHasCol df "volume" && dfHasCol df "avg_volume_30d") = true) :
    dfGetCol (calcVolumeGroup df) "volume_ratio"
      = df.rows.map (fun r => some (fillna 1 (numDiv (joinGet r "volume")
          (replaceZero (joinGet r "avg_volume_30d"))))) := by
  unfold calcVolumeGroup
  rw [if_pos h, dfGetCol_dfAssign_self]
  show (dfAssign df "volume_ratio" _).rows.map _ = _
  simp only [dfAssign, List.map_map]
  apply List.map_congr_left
  intro r _
  simp [Function.comp, joinGet, rowGet_rowSet]

/-- The volume group is a no-op when a source column is missing. -/
theorem calcVolumeGroup_neg (df : DF)
    (h : ¬ (dfHasCol df "volume" && dfHasCol df "avg_volume_30d") = true) :
    calcVolumeGroup df = df := by
  unfold calcVolumeGroup
  rw [if_neg h]

/-- Value of `price_momentum` when the momentum group runs. -/
theorem calcMomentumGroup_pos (df : DF)
    (h : (dfHasCol df "current_price" && dfHasCol df "prev_close") = true) :
    dfGetCol (calcMomentumGroup df) "price_momentum"
      = df.rows.map (fun r => some (fillna 0 (numMul
          (numDiv (numSub (joinGet r "current_price") (joinGet r "prev_close"))
            (joinGet r "prev_close")) 100))) := by
  unfold calcMomentumGroup
  rw [if_pos h, dfGetCol_dfAssign_self]

/-- The momentum group is a no-op when a source column is missing. -/
theorem calcMomentumGroup_neg (df : DF)
    (h : ¬ (dfHasCol df "current_price" && dfHasCol df "prev_close") = true) :
    calcMomentumGroup df = df := by
  unfold calcMomentumGroup
  rw [if_neg h]

/-- Value of `market_cap_category` when the market-cap group runs. -/
theorem calcMarketCapGroup_pos (df : DF) (h : dfHasCol df "market_cap" = true) :
    dfGetCol (calcMarketCapGroup df) "market_cap_category"
      = df.rows.map (fun r => some (marketCapCategory (joinGet r "market_cap"))) := by
  unfold calcMarketCapGroup
  rw [if_pos h, dfGetCol_dfAssign_self]

/-- The market-cap group is a no-op when its source column is missing. -/
theorem calcMarketCapGroup_neg (df : DF) (h : ¬ dfHasCol df "market_cap" = true) :
    calcMarketCapGroup df = df := by
  unfold calcMarketCapGroup
  rw [if_neg h]

/-- Value of `peg_ratio_calculated` when the PEG group runs. -/
theorem calcPegGroup_pos (df : DF)
    (h : (dfHasCol df "pe_ratio" && dfHasCol df "eps_growth") = true) :
    dfGetCol (calcPegGroup df) "peg_ratio_calculated"
      = df.rows.map (fun r => some (fillna 0 (numDiv (joinGet r "pe_ratio")
          (replaceZero (numMul (joinGet r "eps_growth") 100))))) := by
  unfold calcPegGroup
  rw [if_pos h, dfGetCol_dfAssign_self]
  show (dfAssign df "peg_ratio_calculated" _).rows.map _ = _
  simp only [dfAssign, List.map_map]
  apply List.map_congr_left
  intro r _
  simp [Function.comp, joinGet, rowGet_rowSet]

/-- The PEG group is a no-op when a source column is missing. -/
theorem calcPegGroup_neg (df : DF)
    (h : ¬ (dfHasCol df "pe_ratio" && dfHasCol df "eps_growth") = true) :
    calcPegGroup df = df := by
  unfold calcPegGroup
  rw [if_neg h]

/-- The required-fields pass is the identity when every listed field is
already present. -/
theorem ensureFieldsGo_id (L : List (String × Qv)) (df : DF)
    (h : ∀ p ∈ L, dfHasCol df p.1 = true) : ensureFieldsGo L df = df := by
  induction L generalizing df with
  | nil => rfl
  | cons p L ih =>
    show ensureFieldsGo L
      (if dfHasCol df p.1 then df else dfAssign df p.1 (fun _ => some (.num p.2))) = df
    rw [if_pos (h p (List.mem_cons_self p L))]
    exact ih df (fun q hq => h q (List.mem_cons_of_mem p hq))

/-- A column already present keeps its values through the required-fields
pass. -/
theorem ensureFieldsGo_getCol_present (L : List (String × Qv)) (df : DF)
    (c : String) (h : dfHasCol df c = true) :
    dfGetCol (ensureFieldsGo L df) c = dfGetCol df c := by
  induction L generalizing df with
  | nil => rfl
  | cons p L ih =>
    show dfGetCol (ensureFieldsGo L
      (if dfHasCol df p.1 then df else dfAssign df p.1 (fun _ => some (.num p.2)))) c
      = dfGetCol df c
    by_cases hp : dfHasCol df p.1 = true
    · rw [if_pos hp]
      exact ih df h
    · rw [if_neg hp]
      rw [ih _ (dfHasCol_dfAssign_mono df p.1 _ c h)]
      exact dfGetCol_dfAssign_ne df p.1 _ c (fun hce => hp (hce ▸ h))

/-- A column absent from the frame but listed with a default is filled with
that default, in every row, by the required-fields pass. -/
theorem ensureFieldsGo_getCol_absent (L : List (String × Qv)) (df : DF)
    (c : String) (dv : Qv) (hc : alookup L c = some dv)
    (habs : dfHasCol df c = false) :
    dfGetCol (ensureFieldsGo L df) c
      = List.replicate df.rows.length (some (some (.num dv))) := by
  induction L generalizing df with
  | nil => exact absurd hc (by simp [alookup])
  | cons p L ih =>
    show dfGetCol (ensureFieldsGo L
      (if dfHasCol df p.1 then df else dfAssign df p.1 (fun _ => some (.num p.2)))) c = _
    by_cases hpc : p.1 = c
    · have hdv : p.2 = dv := by
        have := hc
        simp [alookup, hpc] at this
        exact this
      rw [if_neg (by rw [hpc, habs]; simp)]
      cases hrows : df.rows with
      | nil =>
        have hnil : (dfAssign df p.1 (fun _ => some (.num p.2))).rows = [] := by
          simp [dfAssign, hrows]
        have h2 := rows_nil_of_stageMaps (stageMaps_ensureFieldsGo L) _ hnil
        simp [dfGetCol, h2, hrows]
      | cons r rs =>
        have hhas : dfHasCol (dfAssign df p.1 (fun _ => some (.num p.2))) c = true := by
          rw [hpc]
          exact dfHasCol_dfAssign_self df c _ (by rw [hrows]; exact List.cons_ne_nil r rs)
        rw [ensureFieldsGo_getCol_present L _ c hhas, hpc, dfGetCol_dfAssign_self, hdv,
          map_const_replicate, hrows]
    · have hc2 : alookup L c = some dv := by
        have := hc
        simp [alookup, hpc] at this
        exact this
      by_cases hp : dfHasCol df p.1 = true
      · rw [if_pos hp]
        exact ih df hc2 habs
      · rw [if_neg hp]
        have habs2 : dfHasCol (dfAssign df p.1 (fun _ => some (.num p.2))) c = false := by
          rw [dfHasCol_dfAssign_ne df p.1 _ c (fun he => hpc he.symm)]
          exact habs
        have hlen : (dfAssign df p.1 (fun _ => some (.num p.2))).rows.length
            = df.rows.length := by simp [dfAssign]
        rw [ih _ hc2 habs2, hlen]

/-- The completeness assignment, as a stage. -/
theorem stageMaps_qualityCompleteness :
    StageMaps qualityCompleteness ["data_completeness"] :=
  stageMaps_assign "data_completeness" (fun _ r => some (.num (countSome r)))

/-- The completeness-percentage assignment, as a stage. -/
theorem stageMaps_qualityPct : StageMaps qualityPct ["data_completeness_pct"] :=
  stageMaps_assign "data_completeness_pct" (fun df r =>
    numMul (numDiv (joinGet r "data_completeness") (some (.num (dfNumCols df)))) 100)

/-- The data-age assignment, as a stage. -/
theorem stageMaps_qualityAge : StageMaps qualityAge ["data_age_hours"] :=
  stageMaps_assign "data_age_hours" (fun _ _ => some (.num 0))

/-- The conditional `data_source` default, as a stage. -/
theorem stageMaps_qualityDataSource : StageMaps qualityDataSource ["data_source"] :=
  stageMaps_ite_skip (fun df => dfHasCol df "data_source")
    (stageMaps_assign "data_source" (fun _ _ => some (.str "Multi-Source System")))

/-- When `data_source` is already present the quality stage does not touch
it. -/
theorem add_quality_getCol_ds (df : DF) (h : dfHasCol df "data_source" = true) :
    dfGetCol (add_data_quality_indicators df) "data_source"
      = dfGetCol df "data_source" := by
  unfold add_data_quality_indicators qualityDataSource
  have h3 : dfHasCol (qualityAge (qualityPct (qualityCompleteness df))) "data_source" = true := by
    unfold qualityAge qualityPct qualityCompleteness
    exact dfHasCol_dfAssign_mono _ _ _ _
      (dfHasCol_dfAssign_mono _ _ _ _ (dfHasCol_dfAssign_mono _ _ _ _ h))
  rw [if_pos h3]
  unfold qualityAge qualityPct qualityCompleteness
  rw [dfGetCol_dfAssign_ne _ _ _ _ (by decide), dfGetCol_dfAssign_ne _ _ _ _ (by decide),
    dfGetCol_dfAssign_ne _ _ _ _ (by decide)]

/-- The quality stage sets `data_age_hours` to 0 in every row. -/
theorem add_quality_getCol_age (df : DF) :
    dfGetCol (add_data_quality_indicators df) "data_age_hours"
      = List.replicate df.rows.length (some (some (.num 0))) := by
  unfold add_data_quality_indicators
  rw [dfGetCol_of_stageMaps stageMaps_qualityDataSource _ _ (by decide)]
  unfold qualityAge
  rw [dfGetCol_dfAssign_self, map_const_replicate,
    rows_length_of_stageMaps stageMaps_qualityPct,
    rows_length_of_stageMaps stageMaps_qualityCompleteness]

/-- On a non-empty frame, the quality stage guarantees a `data_source`
column. -/
theorem add_quality_hasCol_ds (df : DF) (h : df.rows ≠ []) :
    dfHasCol (add_data_quality_indicators df) "data_source" = true := by
  unfold add_data_quality_indicators qualityDataSource
  have hlen : (qualityAge (qualityPct (qualityCompleteness df))).rows.length
      = df.rows.length := by
    rw [rows_length_of_stageMaps stageMaps_qualityAge,
      rows_length_of_stageMaps stageMaps_qualityPct,
      rows_length_of_stageMaps stageMaps_qualityCompleteness]
  have hne : (qualityAge (qualityPct (qualityCompleteness df))).rows ≠ [] := by
    intro hn
    apply h
    have := hlen
    rw [hn] at this
    exact List.length_eq_zero.mp this.symm
  by_cases hds : dfHasCol (qualityAge (qualityPct (qualityCompleteness df))) "data_source" = true
  · rw [if_pos hds]
    exact hds
  · rw [if_neg hds]
    exact dfHasCol_dfAssign_self _ _ _ hne

/-! Claim C4 — enrichment is NOT idempotent; it is idempotent on all fields
except the two completeness metadata fields. -/

/-- C4 (amended). On any dataset already carrying the required scoring
fields, running the enrichment twice agrees with running it once on every
field except `data_completeness` and `data_completeness_pct` (which the
second run recomputes over the widened column set that now includes the
metadata columns added by the first run). -/
theorem claim4_enrich_idempotent_except_quality (df : DF)
    (hreq : ∀ c ∈ required_field_names, dfHasCol df c = true)
    (c : String) (h1 : c ≠ "data_completeness") (h2 : c ≠ "data_completeness_pct") :
    dfGetCol (enrich_stock_data (enrich_stock_data df)) c
      = dfGetCol (enrich_stock_data df) c := by
  by_cases hempty : df.rows = []
  · have e1 := rows_nil_of_stageMaps stageMaps_enrich_stock_data df hempty
    have e2 := rows_nil_of_stageMaps stageMaps_enrich_stock_data _ e1
    simp [dfGetCol, e1, e2]
  have hdisj1 : ∀ x ∈ required_field_names, x ∉ calc_targets := by decide
  have hdisj2 : ∀ x ∈ required_field_names, x ∉ quality_targets := by decide
  have hreq1 : ∀ p ∈ required_field_defaults,
      dfHasCol (add_calculated_metrics df) p.1 = true := by
    intro p hp
    have hmem : p.1 ∈ required_field_names := List.mem_map_of_mem Prod.fst hp
    rw [dfHasCol_of_stageMaps stageMaps_add_calculated_metrics df p.1 (hdisj1 p.1 hmem)]
    exact hreq p.1 hmem
  have hE : enrich_stock_data df
      = add_data_quality_indicators (add_calculated_metrics df) := by
    unfold enrich_stock_data ensure_required_fields
    rw [ensureFieldsGo_id _ _ hreq1]
  have hstab : ∀ x, x ∉ calc_targets → x ∉ quality_targets →
      dfHasCol (enrich_stock_data df) x = dfHasCol df x := by
    intro x hx1 hx2
    rw [hE, dfHasCol_of_stageMaps stageMaps_add_data_quality_indicators _ x hx2,
      dfHasCol_of_stageMaps stageMaps_add_calculated_metrics _ x hx1]
  have hreqE : ∀ x ∈ required_field_names, dfHasCol (enrich_stock_data df) x = true := by
    intro x hx
    rw [hstab x (hdisj1 x hx) (hdisj2 x hx)]
    exact hreq x hx
  have hreq2 : ∀ p ∈ required_field_defaults,
      dfHasCol (add_calculated_metrics (enrich_stock_data df)) p.1 = true := by
    intro p hp
    have hmem : p.1 ∈ required_field_names := List.mem_map_of_mem Prod.fst hp
    rw [dfHasCol_of_stageMaps stageMaps_add_calculated_metrics _ p.1 (hdisj1 p.1 hmem)]
    exact hreqE p.1 hmem
  have hrun2 : enrich_stock_data (enrich_stock_data df)
      = add_data_quality_indicators (add_calculated_metrics (enrich_stock_data df)) := by
    have hid : ensure_required_fields (add_calculated_metrics (enrich_stock_data df))
        = add_calculated_metrics (enrich_stock_data df) := by
      unfold ensure_required_fields
      exact ensureFieldsGo_id _ _ hreq2
    show add_data_quality_indicators
        (ensure_required_fields (add_calculated_metrics (enrich_stock_data df)))
      = add_data_quality_indicators (add_calculated_metrics (enrich_stock_data df))
    rw [hid]
  obtain ⟨Fc, hCrows, hCpres⟩ := stageMaps_add_calculated_metrics df
  obtain ⟨Fq, hQrows, hQpres⟩ :=
    stageMaps_add_data_quality_indicators (add_calculated_metrics df)
  have hErows : (enrich_stock_data df).rows = df.rows.map (fun r => Fq (Fc r)) := by
    rw [hE, hQrows, hCrows, List.map_map]
    rfl
  have hEpres : ∀ r x, x ∉ calc_targets → x ∉ quality_targets →
      rowGet (Fq (Fc r)) x = rowGet r x := by
    intro r x hx1 hx2
    rw [hQpres _ _ hx2, hCpres _ _ hx1]
  rw [hrun2]
  by_cases hvr : c = "volume_ratio"
  · subst hvr
    have hRHS : dfGetCol (enrich_stock_data df) "volume_ratio"
        = dfGetCol (calcVolumeGroup df) "volume_ratio" := by
      rw [hE, dfGetCol_of_stageMaps stageMaps_add_data_quality_indicators _ _ (by decide)]
      unfold add_calculated_metrics
      rw [dfGetCol_of_stageMaps stageMaps_calcPegGroup _ _ (by decide),
        dfGetCol_of_stageMaps stageMaps_calcMarketCapGroup _ _ (by decide),
        dfGetCol_of_stageMaps stageMaps_calcMomentumGroup _ _ (by decide)]
    rw [hRHS, dfGetCol_of_stageMaps stageMaps_add_data_quality_indicators _ _ (by decide)]
    unfold add_calculated_metrics
    rw [dfGetCol_of_stageMaps stageMaps_calcPegGroup _ _ (by decide),
      dfGetCol_of_stageMaps stageMaps_calcMarketCapGroup _ _ (by decide),
      dfGetCol_of_stageMaps stageMaps_calcMomentumGroup _ _ (by decide)]
    by_cases hb : (dfHasCol df "volume" && dfHasCol df "avg_volume_30d") = true
    · have hbE : (dfHasCol (enrich_stock_data df) "volume"
          && dfHasCol (enrich_stock_data df) "avg_volume_30d") = true := by
        rw [hstab "volume" (by decide) (by decide),
          hstab "avg_volume_30d" (by decide) (by decide)]
        exact hb
      rw [calcVolumeGroup_pos _ hbE, calcVolumeGroup_pos _ hb, hErows, List.map_map]
      apply List.map_congr_left
      intro r _
      simp only [Function.comp]
      unfold joinGet
      rw [hEpres r "volume" (by decide) (by decide),
        hEpres r "avg_volume_30d" (by decide) (by decide)]
    · have hbE : ¬ (dfHasCol (enrich_stock_data df) "volume"
          && dfHasCol (enrich_stock_data df) "avg_volume_30d") = true := by
        rw [hstab "volume" (by decide) (by decide),
          hstab "avg_volume_30d" (by decide) (by decide)]
        exact hb
      rw [calcVolumeGroup_neg _ hbE, calcVolumeGroup_neg _ hb, hE,
        dfGetCol_of_stageMaps stageMaps_add_data_quality_indicators _ _ (by decide)]
      unfold add_calculated_metrics
      rw [dfGetCol_of_stageMaps stageMaps_calcPegGroup _ _ (by decide),
        dfGetCol_of_stageMaps stageMaps_calcMarketCapGroup _ _ (by decide),
        dfGetCol_of_stageMaps stageMaps_calcMomentumGroup _ _ (by decide),
        calcVolumeGroup_neg _ hb]
  by_cases hpm : c = "price_momentum"
  · subst hpm
    have hRHS : dfGetCol (enrich_stock_data df) "price_momentum"
        = dfGetCol (calcMomentumGroup (calcVolumeGroup df)) "price_momentum" := by
      rw [hE, dfGetCol_of_stageMaps stageMaps_add_data_quality_indicators _ _ (by decide)]
      unfold add_calculated_metrics
      rw [dfGetCol_of_stageMaps stageMaps_calcPegGroup _ _ (by decide),
        dfGetCol_of_stageMaps stageMaps_calcMarketCapGroup _ _ (by decide)]
    rw [hRHS, dfGetCol_of_stageMaps stageMaps_add_data_quality_indicators _ _ (by decide)]
    unfold add_calculated_metrics
    rw [dfGetCol_of_stageMaps stageMaps_calcPegGroup _ _ (by decide),
      dfGetCol_of_stageMaps stageMaps_calcMarketCapGroup _ _ (by decide)]
    have hcp : dfHasCol (calcVolumeGroup (enrich_stock_data df)) "current_price"
        = dfHasCol (calcVolumeGroup df) "current_price" := by
      rw [dfHasCol_of_stageMaps stageMaps_calcVolumeGroup _ _ (by decide),
        dfHasCol_of_stageMaps stageMaps_calcVolumeGroup _ _ (by decide)]
      exact hstab _ (by decide) (by decide)
    have hpc : dfHasCol (calcVolumeGroup (enrich_stock_data df)) "prev_close"
        = dfHasCol (calcVolumeGroup df) "prev_close" := by
      rw [dfHasCol_of_stageMaps stageMaps_calcVolumeGroup _ _ (by decide),
        dfHasCol_of_stageMaps stageMaps_calcVolumeGroup _ _ (by decide)]
      exact hstab _ (by decide) (by decide)
    by_cases hb : (dfHasCol (calcVolumeGroup df) "current_price"
        && dfHasCol (calcVolumeGroup df) "prev_close") = true
    · have hbE : (dfHasCol (calcVolumeGroup (enrich_stock_data df)) "current_price"
          && dfHasCol (calcVolumeGroup (enrich_stock_data df)) "prev_close") = true := by
        rw [hcp, hpc]
        exact hb
      rw [calcMomentumGroup_pos _ hbE, calcMomentumGroup_pos _ hb]
      obtain ⟨Fv, hv1, hv2⟩ := stageMaps_calcVolumeGroup (enrich_stock_data df)
      obtain ⟨Fw, hw1, hw2⟩ := stageMaps_calcVolumeGroup df
      rw [hv1, hw1, hErows, List.map_map, List.map_map, List.map_map]
      apply List.map_congr_left
      intro r _
      simp only [Function.comp]
      unfold joinGet
      rw [hv2 (Fq (Fc r)) "current_price" (by decide), hv2 (Fq (Fc r)) "prev_close" (by decide),
        hEpres r "current_price" (by decide) (by decide),
        hEpres r "prev_close" (by decide) (by decide),
        hw2 r "current_price" (by decide), hw2 r "prev_close" (by decide)]
    · have hbE : ¬ (dfHasCol (calcVolumeGroup (enrich_stock_data df)) "current_price"
          && dfHasCol (calcVolumeGroup (enrich_stock_data df)) "prev_close") = true := by
        rw [hcp, hpc]
        exact hb
      rw [calcMomentumGroup_neg _ hbE, calcMomentumGroup_neg _ hb,
        dfGetCol_of_stageMaps stageMaps_calcVolumeGroup _ _ (by decide),
        dfGetCol_of_stageMaps stageMaps_calcVolumeGroup _ _ (by decide), hE,
        dfGetCol_of_stageMaps stageMaps_add_data_quality_indicators _ _ (by decide)]
      unfold add_calculated_metrics
      rw [dfGetCol_of_stageMaps stageMaps_calcPegGroup _ _ (by decide),
        dfGetCol_of_stageMaps stageMaps_calcMarketCapGroup _ _ (by decide),
        calcMomentumGroup_neg _ hb,
        dfGetCol_of_stageMaps stageMaps_calcVolumeGroup _ _ (by decide)]
  by_cases hmc : c = "market_cap_category"
  · subst hmc
    have hRHS : dfGetCol (enrich_stock_data df) "market_cap_category"
        = dfGetCol (calcMarketCapGroup (calcMomentumGroup (calcVolumeGroup df)))
            "market_cap_category" := by
      rw [hE, dfGetCol_of_stageMaps stageMaps_add_data_quality_indicators _ _ (by decide)]
      unfold add_calculated_metrics
      rw [dfGetCol_of_stageMaps stageMaps_calcPegGroup _ _ (by decide)]
    rw [hRHS, dfGetCol_of_stageMaps stageMaps_add_data_quality_indicators _ _ (by decide)]
    unfold add_calculated_metrics
    rw [dfGetCol_of_stageMaps stageMaps_calcPegGroup _ _ (by decide)]
    have hmcap : dfHasCol (calcMomentumGroup (calcVolumeGroup (enrich_stock_data df))) "market_cap"
        = dfHasCol (calcMomentumGroup (calcVolumeGroup df)) "market_cap" := by
      rw [dfHasCol_of_stageMaps stageMaps_calcMomentumGroup _ _ (by decide),
        dfHasCol_of_stageMaps stageMaps_calcMomentumGroup _ _ (by decide),
        dfHasCol_of_stageMaps stageMaps_calcVolumeGroup _ _ (by decide),
        dfHasCol_of_stageMaps stageMaps_calcVolumeGroup _ _ (by decide)]
      exact hstab _ (by decide) (by decide)
    by_cases hb : dfHasCol (calcMomentumGroup (calcVolumeGroup df)) "market_cap" = true
    · have hbE : dfHasCol (calcMomentumGroup (calcVolumeGroup (enrich_stock_data df)))
          "market_cap" = true := by
        rw [hmcap]
        exact hb
      rw [calcMarketCapGroup_pos _ hbE, calcMarketCapGroup_pos _ hb]
      obtain ⟨F2, h21, h22⟩ := stageMaps_calc2 (enrich_stock_data df)
      obtain ⟨F3, h31, h32⟩ := stageMaps_calc2 df
      have h21a : (calcMomentumGroup (calcVolumeGroup (enrich_stock_data df))).rows
          = (enrich_stock_data df).rows.map F2 := h21
      have h31a : (calcMomentumGroup (calcVolumeGroup df)).rows = df.rows.map F3 := h31
      rw [h21a, h31a, hErows, List.map_map, List.map_map, List.map_map]
      apply List.map_congr_left
      intro r _
      simp only [Function.comp]
      unfold joinGet
      rw [h22 (Fq (Fc r)) "market_cap" (by decide),
        hEpres r "market_cap" (by decide) (by decide),
        h32 r "market_cap" (by decide)]
    · have hbE : ¬ dfHasCol (calcMomentumGroup (calcVolumeGroup (enrich_stock_data df)))
          "market_cap" = true := by
        rw [hmcap]
        exact hb
      rw [calcMarketCapGroup_neg _ hbE, calcMarketCapGroup_neg _ hb,
        dfGetCol_of_stageMaps stageMaps_calcMomentumGroup _ _ (by decide),
        dfGetCol_of_stageMaps stageMaps_calcVolumeGroup _ _ (by decide), hE,
        dfGetCol_of_stageMaps stageMaps_add_data_quality_indicators _ _ (by decide)]
      unfold add_calculated_metrics
      rw [dfGetCol_of_stageMaps stageMaps_calcPegGroup _ _ (by decide),
        calcMarketCapGroup_neg _ hb,
        dfGetCol_of_stageMaps stageMaps_calcMomentumGroup _ _ (by decide),
        dfGetCol_of_stageMaps stageMaps_calcVolumeGroup _ _ (by decide)]
  by_cases hprc : c = "peg_ratio_calculated"
  · subst hprc
    have hRHS : dfGetCol (enrich_stock_data df) "peg_ratio_calculated"
        = dfGetCol (calcPegGroup (calcMarketCapGroup (calcMomentumGroup (calcVolumeGroup df))))
            "peg_ratio_calculated" := by
      rw [hE, dfGetCol_of_stageMaps stageMaps_add_data_quality_indicators _ _ (by decide)]
      rfl
    rw [hRHS, dfGetCol_of_stageMaps stageMaps_add_data_quality_indicators _ _ (by decide)]
    have hpegE : (dfHasCol (calcMarketCapGroup (calcMomentumGroup (calcVolumeGroup
        (enrich_stock_data df)))) "pe_ratio"
        && dfHasCol (calcMarketCapGroup (calcMomentumGroup (calcVolumeGroup
        (enrich_stock_data df)))) "eps_growth") = true := by
      rw [dfHasCol_of_stageMaps stageMaps_calcMarketCapGroup _ _ (by decide),
        dfHasCol_of_stageMaps stageMaps_calcMomentumGroup _ _ (by decide),
        dfHasCol_of_stageMaps stageMaps_calcVolumeGroup _ _ (by decide),
        dfHasCol_of_stageMaps stageMaps_calcMarketCapGroup _ _ (by decide),
        dfHasCol_of_stageMaps stageMaps_calcMomentumGroup _ _ (by decide),
        dfHasCol_of_stageMaps stageMaps_calcVolumeGroup _ _ (by decide),
        hreqE "pe_ratio" (by decide), hreqE "eps_growth" (by decide)]
      rfl
    have hpegD : (dfHasCol (calcMarketCapGroup (calcMomentumGroup (calcVolumeGroup df)))
        "pe_ratio"
        && dfHasCol (calcMarketCapGroup (calcMomentumGroup (calcVolumeGroup df)))
        "eps_growth") = true := by
      rw [dfHasCol_of_stageMaps stageMaps_calcMarketCapGroup _ _ (by decide),
        dfHasCol_of_stageMaps stageMaps_calcMomentumGroup _ _ (by decide),
        dfHasCol_of_stageMaps stageMaps_calcVolumeGroup _ _ (by decide),
        dfHasCol_of_stageMaps stageMaps_calcMarketCapGroup _ _ (by decide),
        dfHasCol_of_stageMaps stageMaps_calcMomentumGroup _ _ (by decide),
        dfHasCol_of_stageMaps stageMaps_calcVolumeGroup _ _ (by decide),
        hreq "pe_ratio" (by decide), hreq "eps_growth" (by decide)]
      rfl
    show dfGetCol (calcPegGroup (calcMarketCapGroup (calcMomentumGroup (calcVolumeGroup
        (enrich_stock_data df))))) "peg_ratio_calculated" = _
    rw [calcPegGroup_pos _ hpegE, calcPegGroup_pos _ hpegD]
    obtain ⟨F2, h21, h22⟩ := stageMaps_calc3 (enrich_stock_data df)
    obtain ⟨F3, h31, h32⟩ := stageMaps_calc3 df
    have h21a : (calcMarketCapGroup (calcMomentumGroup (calcVolumeGroup
        (enrich_stock_data df)))).rows = (enrich_stock_data df).rows.map F2 := h21
    have h31a : (calcMarketCapGroup (calcMomentumGroup (calcVolumeGroup df))).rows
        = df.rows.map F3 := h31
    rw [h21a, h31a, hErows, List.map_map, List.map_map, List.map_map]
    apply List.map_congr_left
    intro r _
    simp only [Function.comp]
    unfold joinGet
    rw [h22 (Fq (Fc r)) "pe_ratio" (by decide), h22 (Fq (Fc r)) "eps_growth" (by decide),
      hEpres r "pe_ratio" (by decide) (by decide),
      hEpres r "eps_growth" (by decide) (by decide),
      h32 r "pe_ratio" (by decide), h32 r "eps_growth" (by decide)]
  by_cases hage : c = "data_age_hours"
  · subst hage
    rw [add_quality_getCol_age, rows_length_of_stageMaps stageMaps_add_calculated_metrics,
      hErows, List.length_map, hE, add_quality_getCol_age,
      rows_length_of_stageMaps stageMaps_add_calculated_metrics]
  by_cases hds : c = "data_source"
  · subst hds
    have hneCalc : (add_calculated_metrics df).rows ≠ [] := by
      intro hn
      apply hempty
      have hl := rows_length_of_stageMaps stageMaps_add_calculated_metrics df
      rw [hn] at hl
      exact List.length_eq_zero.mp hl.symm
    have hhasE : dfHasCol (enrich_stock_data df) "data_source" = true := by
      rw [hE]
      exact add_quality_hasCol_ds _ hneCalc
    have hhasCalcE : dfHasCol (add_calculated_metrics (enrich_stock_data df))
        "data_source" = true := by
      rw [dfHasCol_of_stageMaps stageMaps_add_calculated_metrics _ _ (by decide)]
      exact hhasE
    rw [add_quality_getCol_ds _ hhasCalcE,
      dfGetCol_of_stageMaps stageMaps_add_calculated_metrics _ _ (by decide)]
  have hc1 : c ∉ calc_targets := by
    intro hmem
    simp [calc_targets] at hmem
    rcases hmem with h | h | h | h
    exacts [hvr h, hpm h, hmc h, hprc h]
  have hc2 : c ∉ quality_targets := by
    intro hmem
    simp [quality_targets] at hmem
    rcases hmem with h | h | h | h
    exacts [h1 h, h2 h, hage h, hds h]
  rw [dfGetCol_of_stageMaps stageMaps_add_data_quality_indicators _ _ hc2,
    dfGetCol_of_stageMaps stageMaps_add_calculated_metrics _ _ hc1]

/-- Witness for C4: a one-row dataset carrying all required fields; the
`ticker` column survives double enrichment unchanged. -/
theorem claim4_enrich_idempotent_except_quality_witness :
    dfGetCol (enrich_stock_data (enrich_stock_data ⟨[[sfld "ticker" "AAPL",
      nfld "debt_to_equity" 1, nfld "free_cash_flow" 0, nfld "interest_income_ratio" 0,
      nfld "volume" 1000000, nfld "average_volume" 1000000, nfld "bid_ask_spread" 0.01,
      nfld "shares_outstanding" 10000000, nfld "trend_30d" 0, nfld "trend_90d" 0,
      nfld "rsi" 50, nfld "volatility" 0.2, nfld "eps" 1, nfld "eps_growth" 0.1,
      nfld "revenue_growth" 0.1, nfld "profit_margin" 0.15, nfld "pe_ratio" 20,
      nfld "pb_ratio" 2, nfld "roe" 0.15]]⟩)) "ticker"
    = dfGetCol (enrich_stock_data ⟨[[sfld "ticker" "AAPL",
      nfld "debt_to_equity" 1, nfld "free_cash_flow" 0, nfld "interest_income_ratio" 0,
      nfld "volume" 1000000, nfld "average_volume" 1000000, nfld "bid_ask_spread" 0.01,
      nfld "shares_outstanding" 10000000, nfld "trend_30d" 0, nfld "trend_90d" 0,
      nfld "rsi" 50, nfld "volatility" 0.2, nfld "eps" 1, nfld "eps_growth" 0.1,
      nfld "revenue_growth" 0.1, nfld "profit_margin" 0.15, nfld "pe_ratio" 20,
      nfld "pb_ratio" 2, nfld "roe" 0.15]]⟩) "ticker" :=
  claim4_enrich_idempotent_except_quality _ (by decide) "ticker" (by decide) (by decide)

set_option maxRecDepth 100000

/-- Counterexample for C4 as stated: on the dataset with the single field
`ticker = "ZZZZ"`, a second enrichment changes the frame — it recomputes
`data_completeness` over the columns added by the first pass (19 becomes 24,
the 23 first-pass columns plus the newly derivable `peg_ratio_calculated`). -/
theorem claim4_enrich_counterexample :
    enrich_stock_data (enrich_stock_data ⟨[[("ticker", some (.str "ZZZZ"))]]⟩)
      ≠ enrich_stock_data ⟨[[("ticker", some (.str "ZZZZ"))]]⟩
    ∧ dfGetCol (enrich_stock_data ⟨[[("ticker", some (.str "ZZZZ"))]]⟩)
        "data_completeness" = [some (some (.num 19))]
    ∧ dfGetCol (enrich_stock_data (enrich_stock_data ⟨[[("ticker", some (.str "ZZZZ"))]]⟩))
        "data_completeness" = [some (some (.num 24))] := by
  refine ⟨by decide, by decide, by decide⟩

/-! Claim C6 — the synthetic final fallback. -/

/-- Mapping over the enumeration and projecting the element is mapping over
the list. -/
theorem enum_map_val {α β : Type} (l : List α) (f : α → β) :
    l.enum.map (fun p => f p.2) = l.map f := by
  rw [show (fun p : Nat × α => f p.2) = f ∘ Prod.snd from rfl, ← List.map_map,
    List.enum_map_snd]

/-- Every required field is, in every synthetic sample record, either absent
(uniformly in the record's parameters) or present with a non-null numeric
value (uniformly as well); which of the two holds depends only on the field. -/
theorem sample_row_required (j : Nat) (u : String) (m : Nat) (c : String)
    (hc : c ∈ required_field_names) :
    (rowHas (generate_sample_row j u m) c = false
       ∧ ∀ i t now, rowGet (generate_sample_row i t now) c = none)
    ∨ (rowHas (generate_sample_row j u m) c = true
       ∧ ∀ i t now, ∃ q, rowGet (generate_sample_row i t now) c
           = some (some (.num q))) := by
  fin_cases hc
  all_goals first
    | exact Or.inl ⟨rfl, fun i t now => rfl⟩
    | exact Or.inr ⟨rfl, fun i t now => ⟨_, rfl⟩⟩

/-- In the enriched synthetic frame, every required field holds a non-null
numeric value in every row: fields the generator emits are numeric, and the
rest are filled by `_ensure_required_fields` with their numeric defaults. -/
theorem sample_fallback_required (t : String) (ts : List String) (now : Nat)
    (c : String) (hc : c ∈ required_field_names) :
    ∀ v ∈ dfGetCol (enrich_stock_data (generate_sample_stock_data (t :: ts) now)) c,
      ∃ q, v = some (some (.num q)) := by
  have hd1 : ∀ x ∈ required_field_names, x ∉ calc_targets := by decide
  have hd2 : ∀ x ∈ required_field_names, x ∉ quality_targets := by decide
  have hcolG : dfHasCol (add_calculated_metrics
        (generate_sample_stock_data (t :: ts) now)) c
      = rowHas (generate_sample_row 0 t now) c := by
    rw [dfHasCol_of_stageMaps stageMaps_add_calculated_metrics _ _ (hd1 c hc)]
    rfl
  unfold enrich_stock_data ensure_required_fields
  rw [dfGetCol_of_stageMaps stageMaps_add_data_quality_indicators _ _ (hd2 c hc)]
  rcases sample_row_required 0 t now c hc with ⟨hmark, hall⟩ | ⟨hmark, hall⟩
  · have hsome : ∀ x ∈ required_field_names,
        (alookup required_field_defaults x).isSome = true := by decide
    obtain ⟨dv, hdv⟩ := Option.isSome_iff_exists.mp (hsome c hc)
    have habs : dfHasCol (add_calculated_metrics
        (generate_sample_stock_data (t :: ts) now)) c = false := by
      rw [hcolG]
      exact hmark
    rw [ensureFieldsGo_getCol_absent required_field_defaults _ c dv hdv habs]
    intro v hv
    rw [List.eq_of_mem_replicate hv]
    exact ⟨dv, rfl⟩
  · have hpres : dfHasCol (add_calculated_metrics
        (generate_sample_stock_data (t :: ts) now)) c = true := by
      rw [hcolG]
      exact hmark
    rw [ensureFieldsGo_getCol_present required_field_defaults _ c hpres,
      dfGetCol_of_stageMaps stageMaps_add_calculated_metrics _ _ (hd1 c hc)]
    intro v hv
    obtain ⟨r, hr, hvr⟩ := List.mem_map.mp hv
    obtain ⟨p, hp, hgen⟩ := List.mem_map.mp hr
    obtain ⟨q, hq⟩ := hall p.1 p.2 now
    refine ⟨q, ?_⟩
    rw [← hvr, ← hgen, hq]

/-- C6 (amended). With no adapter available and an empty local cache, the
orchestrator returns the enriched synthetic frame: exactly one record per
requested ticker in request order (formulas keyed by the request index),
`data_source` equal to `'Sample Data (Final Fallback)'` — not `"synthetic"` —
and every required field present with a non-null numeric value. -/
theorem claim6_synthetic_fallback (yr : Option (List Row))
    (aq : String → Option AVQuote) (ao : String → Option AVOverview)
    (ai : String → Option AVIncome) (ec : Bool) (md : Metadata) (db : CacheDB)
    (tickers : List String) (now : Nat) (res : OrchResult)
    (hne : tickers ≠ [])
    (hres : res = get_comprehensive_stock_data
      ⟨false, false, ec, yr, aq, ao, ai, none⟩ md db tickers false now) :
    res = { data := enrich_stock_data (generate_sample_stock_data tickers now),
            invoked := [], recorded_calls := [], metadata := md, cache_db := db }
    ∧ (enrich_stock_data (generate_sample_stock_data tickers now)).rows.length
        = tickers.length
    ∧ dfGetCol (enrich_stock_data (generate_sample_stock_data tickers now)) "ticker"
        = tickers.map (fun s => some (some (.str s)))
    ∧ dfGetCol (enrich_stock_data (generate_sample_stock_data tickers now)) "data_source"
        = List.replicate tickers.length
            (some (some (.str "Sample Data (Final Fallback)")))
    ∧ ∀ c ∈ required_field_names,
        ∀ v ∈ dfGetCol (enrich_stock_data (generate_sample_stock_data tickers now)) c,
          ∃ q, v = some (some (.num q)) := by
  subst hres
  obtain ⟨t, ts, rfl⟩ : ∃ t ts, tickers = t :: ts := by
    cases tickers with
    | nil => exact absurd rfl hne
    | cons a l => exact ⟨a, l, rfl⟩
  refine ⟨rfl, ?_, ?_, ?_, ?_⟩
  · rw [rows_length_of_stageMaps stageMaps_enrich_stock_data]
    show ((t :: ts).enum.map (fun p => generate_sample_row p.1 p.2 now)).length
      = (t :: ts).length
    rw [List.length_map, List.enum_length]
  · rw [dfGetCol_of_stageMaps stageMaps_enrich_stock_data _ _ (by decide)]
    show ((t :: ts).enum.map (fun p => generate_sample_row p.1 p.2 now)).map
      (fun r => rowGet r "ticker") = _
    rw [List.map_map]
    rw [show ((fun r => rowGet r "ticker")
          ∘ (fun p : Nat × String => generate_sample_row p.1 p.2 now))
        = (fun p : Nat × String => some (some (Val.str p.2))) from funext (fun p => rfl)]
    exact enum_map_val (t :: ts) (fun s => some (some (Val.str s)))
  · have hds : dfHasCol (ensure_required_fields (add_calculated_metrics
        (generate_sample_stock_data (t :: ts) now))) "data_source" = true := by
      unfold ensure_required_fields
      rw [dfHasCol_of_stageMaps (stageMaps_ensureFieldsGo required_field_defaults)
          _ _ (by decide),
        dfHasCol_of_stageMaps stageMaps_add_calculated_metrics _ _ (by decide)]
      rfl
    show dfGetCol (add_data_quality_indicators (ensure_required_fields
      (add_calculated_metrics (generate_sample_stock_data (t :: ts) now)))) "data_source" = _
    rw [add_quality_getCol_ds _ hds]
    unfold ensure_required_fields
    rw [dfGetCol_of_stageMaps (stageMaps_ensureFieldsGo required_field_defaults)
        _ _ (by decide),
      dfGetCol_of_stageMaps stageMaps_add_calculated_metrics _ _ (by decide)]
    show ((t :: ts).enum.map (fun p => generate_sample_row p.1 p.2 now)).map
      (fun r => rowGet r "data_source") = _
    rw [List.map_map]
    rw [show ((fun r => rowGet r "data_source")
          ∘ (fun p : Nat × String => generate_sample_row p.1 p.2 now))
        = (fun p : Nat × String =>
            some (some (Val.str "Sample Data (Final Fallback)"))) from funext (fun p => rfl)]
    rw [map_const_replicate, List.enum_length]
  · exact fun c hc => sample_fallback_required t ts now c hc

/-- Witness for C6: the claim's own scenario — tickers `["ZZZZ"]`, no
adapters, empty caches. -/
theorem claim6_synthetic_fallback_witness :
    (["ZZZZ"] : List String) ≠ []
    ∧ (get_comprehensive_stock_data
          ⟨false, false, false, none, fun s => none, fun s => none, fun s => none, none⟩
          emptyMetadata emptyCacheDB ["ZZZZ"] false 0
        = { data := enrich_stock_data (generate_sample_stock_data ["ZZZZ"] 0),
            invoked := [], recorded_calls := [],
            metadata := emptyMetadata, cache_db := emptyCacheDB }
      ∧ (enrich_stock_data (generate_sample_stock_data ["ZZZZ"] 0)).rows.length
          = (["ZZZZ"] : List String).length
      ∧ dfGetCol (enrich_stock_data (generate_sample_stock_data ["ZZZZ"] 0)) "ticker"
          = (["ZZZZ"] : List String).map (fun s => some (some (.str s)))
      ∧ dfGetCol (enrich_stock_data (generate_sample_stock_data ["ZZZZ"] 0)) "data_source"
          = List.replicate (["ZZZZ"] : List String).length
              (some (some (.str "Sample Data (Final Fallback)")))
      ∧ ∀ c ∈ required_field_names,
          ∀ v ∈ dfGetCol (enrich_stock_data (generate_sample_stock_data ["ZZZZ"] 0)) c,
            ∃ q, v = some (some (.num q))) :=
  ⟨by decide,
   claim6_synthetic_fallback none (fun s => none) (fun s => none) (fun s => none)
     false emptyMetadata emptyCacheDB ["ZZZZ"] 0 _ (by decide) rfl⟩

/-- Counterexample for C6 as stated: the synthetic fallback tags records with
the literal string `'Sample Data (Final Fallback)'`, not `"synthetic"`. -/
theorem claim6_synthetic_counterexample :
    dfGetCol (enrich_stock_data (generate_sample_stock_data ["ZZZZ"] 0)) "data_source"
      = [some (some (.str "Sample Data (Final Fallback)"))]
    ∧ (some (some (Val.str "Sample Data (Final Fallback)")) : Option (Option Val))
        ≠ some (some (.str "synthetic")) := by
  exact ⟨by decide, by decide⟩

/-! Claim C2 — fallback ordering and provenance. -/

/-- Every record produced by the Alpha Vantage collector carries
`data_source = 'Alpha Vantage'`. -/
theorem alpha_rows_ds (env : OrchEnv) (tickers : List String) (now : Nat) :
    ∀ r ∈ collect_alpha_vantage_data env tickers now,
      rowGet r "data_source" = some (some (.str "Alpha Vantage")) := by
  intro r hr
  unfold collect_alpha_vantage_data at hr
  obtain ⟨tt, htt, hmatch⟩ := List.mem_filterMap.mp hr
  cases hq : env.alpha_quote tt with
  | none =>
    rw [hq] at hmatch
    exact Option.noConfusion hmatch
  | some q =>
    cases ho : env.alpha_overview tt with
    | none =>
      rw [hq, ho] at hmatch
      exact Option.noConfusion hmatch
    | some o =>
      rw [hq, ho] at hmatch
      injection hmatch with hm
      rw [← hm]
      rfl

/-- C2. When Yahoo Finance is attempted but raises or returns an empty frame
and the Alpha Vantage collector yields a non-empty batch, the orchestrator
returns exactly the enriched Alpha Vantage batch (every record's
`data_source` is `'Alpha Vantage'` — no mixed provenance), both adapters
being the ones invoked, and a call is recorded only for Alpha Vantage (and
only when the budget tracker exists), which is among the adapters invoked. -/
theorem claim2_fallback_ordering (env : OrchEnv) (md : Metadata) (db : CacheDB)
    (tickers : List String) (now : Nat) (res : OrchResult)
    (hyav : env.yahoo_finance = true)
    (hyfail : env.yahoo_result = none ∨ env.yahoo_result = some [])
    (hav : env.alpha_vantage = true)
    (halpha : collect_alpha_vantage_data env tickers now ≠ [])
    (hres : res = get_comprehensive_stock_data env md db tickers false now) :
    res = { data := enrich_stock_data ⟨collect_alpha_vantage_data env tickers now⟩,
            invoked := ["yahoo_finance", "alpha_vantage"],
            recorded_calls := if env.enhanced_caching then ["alpha_vantage"] else [],
            metadata := (store_data_in_enhanced_cache env.enhanced_caching md db
              "alpha_vantage" (collect_alpha_vantage_data env tickers now) now).1,
            cache_db := (store_data_in_enhanced_cache env.enhanced_caching md db
              "alpha_vantage" (collect_alpha_vantage_data env tickers now) now).2 }
    ∧ (∀ s ∈ (if env.enhanced_caching then ["alpha_vantage"] else ([] : List String)),
        s ∈ ["yahoo_finance", "alpha_vantage"])
    ∧ (∀ v ∈ dfGetCol (enrich_stock_data ⟨collect_alpha_vantage_data env tickers now⟩)
          "data_source", v = some (some (.str "Alpha Vantage"))) := by
  subst hres
  have hempty : (collect_alpha_vantage_data env tickers now).isEmpty = false := by
    cases hc : collect_alpha_vantage_data env tickers now with
    | nil => exact absurd hc halpha
    | cons a l => rfl
  refine ⟨?_, ?_, ?_⟩
  · rcases hyfail with hy | hy
    · simp [get_comprehensive_stock_data, hyav, hav, hy, hempty]
    · simp [get_comprehensive_stock_data, hyav, hav, hy, hempty]
  · intro s hs
    cases henh : env.enhanced_caching with
    | false =>
      rw [henh] at hs
      simp at hs
    | true =>
      rw [henh] at hs
      simp at hs
      subst hs
      show ("alpha_vantage" : String) ∈ ["yahoo_finance", "alpha_vantage"]
      decide
  · have hrows0 : ∃ r0 rest,
        collect_alpha_vantage_data env tickers now = r0 :: rest := by
      cases hc : collect_alpha_vantage_data env tickers now with
      | nil => exact absurd hc halpha
      | cons a l => exact ⟨a, l, rfl⟩
    obtain ⟨r0, rest, hc⟩ := hrows0
    have hds0 : dfHasCol (⟨collect_alpha_vantage_data env tickers now⟩ : DF)
        "data_source" = true := by
      rw [dfHasCol_of_rows_cons ⟨collect_alpha_vantage_data env tickers now⟩
        "data_source" r0 rest hc]
      unfold rowHas
      rw [alpha_rows_ds env tickers now r0 (by rw [hc]; exact List.mem_cons_self r0 rest)]
      rfl
    have hds2 : dfHasCol (ensure_required_fields (add_calculated_metrics
        (⟨collect_alpha_vantage_data env tickers now⟩ : DF))) "data_source" = true := by
      unfold ensure_required_fields
      rw [dfHasCol_of_stageMaps (stageMaps_ensureFieldsGo required_field_defaults)
          _ _ (by decide),
        dfHasCol_of_stageMaps stageMaps_add_calculated_metrics _ _ (by decide)]
      exact hds0
    have hcol : dfGetCol (enrich_stock_data
          (⟨collect_alpha_vantage_data env tickers now⟩ : DF)) "data_source"
        = dfGetCol (⟨collect_alpha_vantage_data env tickers now⟩ : DF) "data_source" := by
      unfold enrich_stock_data
      rw [add_quality_getCol_ds _ hds2]
      unfold ensure_required_fields
      rw [dfGetCol_of_stageMaps (stageMaps_ensureFieldsGo required_field_defaults)
          _ _ (by decide),
        dfGetCol_of_stageMaps stageMaps_add_calculated_metrics _ _ (by decide)]
    intro v hv
    rw [hcol] at hv
    obtain ⟨r, hr, hvr⟩ := List.mem_map.mp hv
    rw [← hvr, alpha_rows_ds env tickers now r hr]

/-- Witness for C2: Yahoo raises (`yahoo_result = none`), Alpha Vantage
answers ticker `ZZZZ`. -/
theorem claim2_fallback_ordering_witness :
    claim2_env.yahoo_finance = true
    ∧ (claim2_env.yahoo_result = none ∨ claim2_env.yahoo_result = some [])
    ∧ claim2_env.alpha_vantage = true
    ∧ collect_alpha_vantage_data claim2_env ["ZZZZ"] 0 ≠ []
    ∧ (get_comprehensive_stock_data claim2_env emptyMetadata emptyCacheDB
          ["ZZZZ"] false 0
        = { data := enrich_stock_data ⟨collect_alpha_vantage_data claim2_env ["ZZZZ"] 0⟩,
            invoked := ["yahoo_finance", "alpha_vantage"],
            recorded_calls := if claim2_env.enhanced_caching then ["alpha_vantage"] else [],
            metadata := (store_data_in_enhanced_cache claim2_env.enhanced_caching
              emptyMetadata emptyCacheDB "alpha_vantage"
              (collect_alpha_vantage_data claim2_env ["ZZZZ"] 0) 0).1,
            cache_db := (store_data_in_enhanced_cache claim2_env.enhanced_caching
              emptyMetadata emptyCacheDB "alpha_vantage"
              (collect_alpha_vantage_data claim2_env ["ZZZZ"] 0) 0).2 }
      ∧ (∀ s ∈ (if claim2_env.enhanced_caching then ["alpha_vantage"]
            else ([] : List String)),
          s ∈ ["yahoo_finance", "alpha_vantage"])
      ∧ (∀ v ∈ dfGetCol (enrich_stock_data
            ⟨collect_alpha_vantage_data claim2_env ["ZZZZ"] 0⟩) "data_source",
          v = some (some (.str "Alpha Vantage")))) :=
  ⟨rfl, Or.inl rfl, rfl, by decide,
   claim2_fallback_ordering claim2_env emptyMetadata emptyCacheDB ["ZZZZ"] 0 _
     rfl (Or.inl rfl) rfl (by decide) rfl⟩

/-! Claim C10 — force_refresh always routes to the cache-only path. -/

/-- C10. The smart entry point takes the fresh-data path only when the budget
check passes AND `force_refresh` is false; with `force_refresh = true` it
always serves from the cache-only chain (local CSV, then the durable cache,
then synthetic data), invoking no adapter — while still persisting any
metadata reset done by the budget check. -/
theorem claim10_force_refresh_cache_only (env : SmartEnv) (md : Metadata)
    (db : CacheDB) (tickers : List String) (now : Nat) :
    get_stock_data_smart env md db tickers true now
      = (use_cache_only env db tickers now, (can_call_apis_today env md now).2, db, [])
    ∧ (get_stock_data_smart env md db tickers true now).2.2.2 = [] := by
  have h : get_stock_data_smart env md db tickers true now
      = (use_cache_only env db tickers now,
         (can_call_apis_today env md now).2, db, []) := by
    show (if (can_call_apis_today env md now).1 && !true then
        collect_fresh_data env (can_call_apis_today env md now).2 db tickers now
      else (use_cache_only env db tickers now,
        (can_call_apis_today env md now).2, db, [])) = _
    simp
  exact ⟨h, by rw [h]⟩
